import Mathlib

/-!
# Verification of the juicepassproxy relay engine and wire-message codec

This file gives a shallow embedding, in Lean 4, of the parts of the
repository that the specification talks about:

* the wire-message codec (classification, parsing, serialization of
  command / status / encrypted messages).  The codec source file
  (`juicebox_message.py`) is not part of the provided sources — only its
  test suite (`src/test_message.py`) is — so the codec definitions below
  are modelled from the specification, faithful to its grammar, and
  checked against the literal test vectors of the test suite.
* the relay engine `JuiceboxMITM` (`src/juicebox_mitm.py`): connection
  establishment (`_connect`), bounded resending (`send_data`), the
  datagram dispatcher (`_main_mitm_handler`), the receive loop
  (`_mitm_loop`) and the sliding-window fault recorder (`_add_error`).
  These are translated line by line from the Python source.  Effectful
  operations (bind, transmit, receive, clock reads, the transform
  callbacks) are resolved by an explicit environment of oracles, and the
  observable actions of a run are collected in an event trace.
-/

/-! ## Wire-message codec (modelled from the spec)

Modelled from the spec: the codec module itself is not among the provided
source files; the grammar below follows §3/§4.5 of the specification:

* command payload: `CMD` + DOW(1, `1`-`7`) + HHMM(4 digits) + `A` +
  amperage (2 digits legacy, 4 digits widened) + `M` + offline amperage
  (2 digits legacy, 3 digits widened) + `C` + command field (3 digits; the
  spec prints it as the constant `C006`, but the repository's own test
  vectors in `src/test_message.py` also contain `C008` and `C244`, so the
  field is modelled as three digits) + `S` + sequence (digits).
* command wire string: payload + `!` + checksum(3) + `$`.
* status payload: serial (digits) + `:` + comma-joined tokens, each an
  alphabetic key followed by the value characters.
* status wire string: payload + `!` + checksum(3) + `:`.

The exact checksum algorithm is, per the spec's open questions, not
derivable from the available material, so the parser is parameterized by
the checksum function `ck`; parsing verifies `ck payload = checksum`.
-/

/-- Splits off the leading run of decimal digits. -/
def takeDigits (l : List Char) : List Char := l.takeWhile Char.isDigit

/-- The remainder after the leading run of decimal digits. -/
def dropDigits (l : List Char) : List Char := l.dropWhile Char.isDigit

/-- Modelled from the spec: grammar of a command-message payload (both
the legacy 2/2-digit and the widened 4/3-digit amperage variants). -/
def commandPayloadOK : List Char → Bool
  | 'C' :: 'M' :: 'D' :: dow :: h1 :: h2 :: h3 :: h4 :: 'A' :: rest =>
      decide ('1' ≤ dow) && decide (dow ≤ '7') &&
      h1.isDigit && h2.isDigit && h3.isDigit && h4.isDigit &&
      (let amp := takeDigits rest
       (amp.length == 2 || amp.length == 4) &&
       match dropDigits rest with
       | 'M' :: r2 =>
         let off := takeDigits r2
         (off.length == 2 || off.length == 3) &&
         (match dropDigits r2 with
          | 'C' :: r4 =>
            (takeDigits r4).length == 3 &&
            (match dropDigits r4 with
             | 'S' :: r6 =>
               !(takeDigits r6).isEmpty && (dropDigits r6).isEmpty
             | _ => false)
          | _ => false)
       | _ => false)
  | _ => false

/-- Modelled from the spec: one comma-separated status token — a short
alphabetic key followed by the value characters. -/
def statusTokenOK : List Char → Bool
  | [] => false
  | k :: rest => k.isAlpha && rest.all (fun c => c.isAlphanum || c == '-')

/-- Modelled from the spec: grammar of a status-message payload — serial
number (digit run), a colon, then comma-joined key-prefixed tokens. -/
def statusPayloadOK (l : List Char) : Bool :=
  !(takeDigits l).isEmpty &&
  match dropDigits l with
  | ':' :: toks => (toks.splitOn ',').all statusTokenOK
  | _ => false

/-- The two text-message shapes, distinguished by their terminator:
`$` for command messages, `:` for status messages. -/
inductive MsgEnd where
  | cmd
  | stat
deriving DecidableEq

/-- A successfully parsed text message: its payload characters (the part
before `!`), its three checksum characters, and which shape it is.
Mirrors the Python message objects' `payload_str` / `checksum_str`. -/
structure TextMsg where
  ending : MsgEnd
  payload : List Char
  checksum : List Char
deriving DecidableEq

/-- The terminator character of a text-message shape. -/
def MsgEnd.term : MsgEnd → Char
  | .cmd => '$'
  | .stat => ':'

/-- Modelled from the spec: `build()` — serialize a parsed text message
back to its wire characters: payload + `!` + checksum + terminator. -/
def TextMsg.build (m : TextMsg) : List Char :=
  m.payload ++ ('!' :: (m.checksum ++ [m.ending.term]))

/-- `build()` at the `String` level. -/
def TextMsg.buildStr (m : TextMsg) : String :=
  String.mk m.build

/-- Modelled from the spec: classification of the characters of a text
message.  `ck` is the checksum function (left abstract, see above).  The
string is split at the first `!`; after the `!` exactly three checksum
characters and the terminator must follow, the payload must match the
command or the status grammar (as selected by the terminator), and the
checksum must verify.  Anything else is an invalid-message failure
(`JuiceboxInvalidMessageFormat`). -/
def juicebox_message_from_text (ck : List Char → List Char) (l : List Char) :
    Except Unit TextMsg :=
  let p := l.takeWhile (fun c => c != '!')
  let r := l.dropWhile (fun c => c != '!')
  if r.length = 5 then
    let cs := (r.drop 1).take 3
    let e := (r.drop 1).drop 3
    if e = ['$'] then
      if commandPayloadOK p && (ck p == cs) then .ok ⟨.cmd, p, cs⟩
      else .error ()
    else if e = [':'] then
      if statusPayloadOK p && (ck p == cs) then .ok ⟨.stat, p, cs⟩
      else .error ()
    else .error ()
  else .error ()

/-- Modelled from the spec: `juicebox_message_from_string`.  A failure
(`Except.error`) is the model of raising `JuiceboxInvalidMessageFormat`. -/
def juicebox_message_from_string (ck : List Char → List Char) (s : String) :
    Except Unit TextMsg :=
  juicebox_message_from_text ck s.data

/-- A classified message: either a parsed text message or the opaque
encrypted variant carrying the raw bytes. -/
inductive JuiceboxMsg where
  | text (m : TextMsg)
  | encrypted (data : List Nat)
deriving DecidableEq

/-- Modelled from the spec: `juicebox_message_from_bytes`.  Bytes that do
not decode as protocol text are classified as the encrypted variant and
never fail; "decodes as text" is modelled as all bytes being ASCII
(`< 0x80` — the documented binary blobs all contain non-ASCII bytes).
Text bytes are handed to the string classifier, whose invalid-message
failure propagates. -/
def juicebox_message_from_bytes (ck : List Char → List Char) (data : List Nat) :
    Except Unit JuiceboxMsg :=
  if data.all (fun b => decide (b < 128)) then
    (juicebox_message_from_text ck (data.map Char.ofNat)).map .text
  else
    .ok (.encrypted data)

/-- The hex-decoded binary blob documented in `test_entrypted_message` of
`src/test_message.py` (the two adjacent string literals there concatenate
into a single message). -/
def encryptedBlob : List Nat :=
  [48, 57, 49, 48, 48, 52, 50, 48, 48, 49, 50, 56, 48, 54, 54, 48, 52, 50,
   55, 51, 50, 51, 54, 50, 48, 53, 51, 53, 58, 118, 48, 57, 101, 18, 177, 10,
   0, 0, 0, 113, 107, 20, 147, 39, 4, 4, 168, 9, 203, 203, 183, 153, 95, 216,
   107, 57, 30, 75, 94, 96, 111, 213, 21, 58, 129, 236, 214, 37, 30, 178,
   191, 135, 218, 130, 219, 156, 234, 239, 178, 104, 202, 168, 240, 192, 27,
   83, 138, 244, 142, 69, 209, 239, 58, 210, 140, 167, 42, 79, 223, 5, 38,
   23, 128, 253, 117, 59, 54, 25, 6, 54, 134, 52, 130, 27, 246, 202, 218, 86,
   36, 186, 225, 31, 235, 125, 201, 117, 207, 225, 78, 44, 48, 94, 176, 26,
   220, 199, 179, 150, 135, 221, 193, 48, 214, 108, 195, 155, 194, 204, 172,
   127, 144, 60, 185, 181, 10, 219, 154, 119, 185, 91, 119, 189, 54, 75, 130,
   220, 190, 133, 153, 220, 154, 138, 136, 12, 196, 78, 176, 240, 78, 138,
   29, 159, 74, 99, 5, 151, 138, 127, 62, 60, 88, 213, 48, 57, 49, 48, 48,
   52, 50, 48, 48, 49, 50, 56, 48, 54, 54, 48, 52, 50, 55, 51, 50, 51, 54,
   50, 48, 53, 51, 53, 58, 118, 48, 57, 101, 18, 177, 10, 0, 0, 0, 115, 72,
   13, 56, 131, 61, 248, 235, 237, 138, 221, 50, 35, 50, 197, 201, 240, 80,
   27, 50, 233, 179, 91, 113, 209, 216, 211, 227, 137, 245, 185, 0, 43, 66,
   238, 149, 59, 93, 159, 113, 45, 221, 54, 235, 203, 159, 10, 137, 115, 235,
   167, 57, 243, 136, 88, 52, 41, 211, 252, 212, 205, 19, 95, 158, 77, 67,
   122, 214, 173, 33, 193, 26, 216, 232, 147, 105, 37, 42, 218, 25, 75, 82,
   67, 107, 238, 182, 122, 21, 180, 162, 79, 133, 234, 224, 126, 190, 235,
   98, 112, 88, 140, 148, 227, 144, 250, 109, 160, 12, 131, 30, 41, 10, 133,
   82, 189, 73, 206, 1, 77, 177, 170, 112, 132, 62, 187, 93, 178, 176, 222,
   160, 250, 32, 208, 237, 0, 113, 74, 227, 0, 28, 137, 91, 245, 71, 121,
   213, 209, 68, 158, 225, 91, 244, 134]

instance {e a : Type} [DecidableEq e] [DecidableEq a] :
    DecidableEq (Except e a) := fun x y =>
  match x, y with
  | .ok v, .ok w =>
      if h : v = w then isTrue (by rw [h])
      else isFalse (by intro hc; cases hc; exact h rfl)
  | .error v, .error w =>
      if h : v = w then isTrue (by rw [h])
      else isFalse (by intro hc; cases hc; exact h rfl)
  | .ok _, .error _ => isFalse (by intro hc; cases hc)
  | .error _, .ok _ => isFalse (by intro hc; cases hc)


/-! ## Relay engine: `src/juicebox_mitm.py`

The `JuiceboxMITM` class is embedded as a pure state-transition model.
Mutable attributes of the object become fields of `MitmState`; each
effectful primitive (socket bind, datagram transmit, datagram receive,
the clock `time.time()`, the local/remote transform callbacks) is
resolved by a corresponding oracle in `Env`, consumed in program order
through per-oracle counters held in the state.  Raised exceptions are
the `exc` component of a result; the observable actions of a run are
collected in a trace of `MEvent`s.  Python's cooperative scheduling means
a single call runs without interleaving, so straight-line state passing
is faithful; the one cross-task interaction, the shared sending lock, is
modelled by the `lockHeld` field (true when some other task currently
holds `self._sending_lock`).
-/

/-- A UDP endpoint `(host, port)`; hosts are abstract identifiers. -/
structure Addr where
  host : Nat
  port : Nat
deriving DecidableEq

/-- The exceptions arising on the modelled paths.  The three
`ChildProcessError`s carry their distinguishing messages in the
constructor name. -/
inductive PyExc where
  | childUnableToStart
  | childUnableToSend
  | childTooManyErrors
  | osErr (code : Nat)
  | keyError
deriving DecidableEq

/-- Python's exception hierarchy: `ChildProcessError` is a subclass of
`OSError`, so an `except OSError` clause catches it; `KeyError` is not
an `OSError`. -/
def PyExc.isOSError : PyExc → Bool
  | .keyError => false
  | _ => true

/-- The `errno` attribute of the exception: a transport `OSError` carries
its code; a `ChildProcessError` raised with a single message argument has
`errno` `None`. -/
def PyExc.errnoVal : PyExc → Option Nat
  | .osErr code => some code
  | _ => none

/-- Outcome of one transmit attempt: the `try` block around
`self._dgram.send` under `asyncio.timeout(SEND_DATA_TIMEOUT)` and the
sending lock, as the environment resolves it. -/
inductive SendOutcome where
  | ok
  | closed
  | timeout
  | osError (code : Nat)
deriving DecidableEq

/-- The outcomes that `send_data` itself absorbs and retries
(`asyncio_dgram.TransportClosed` and `TimeoutError`). -/
def SendOutcome.retryable : SendOutcome → Bool
  | .closed => true
  | .timeout => true
  | _ => false

/-- Outcome of one receive iteration of `_mitm_loop` while a socket is
held: the transport reports closed, the 120 s receive timeout fires, or
a datagram arrives and its dispatch either completes or hits the 10 s
handler timeout. -/
inductive LoopEv where
  | recvClosed
  | recvTimeout
  | recvData (data : List Nat) (src : Addr)
  | recvDataHT (data : List Nat) (src : Addr)
deriving DecidableEq

/-- Observable actions of a run.  `bindTry`'s first field records whether
`_connect` itself acquired the sending lock around the bind (it skips the
acquisition when the lock is already held elsewhere); `transmit`'s last
field records that the transmission ran under `async with
self._sending_lock`. -/
inductive MEvent where
  | bindTry (underLock : Bool) (ok : Bool)
  | errorRecorded (t : Int)
  | sleepConnect
  | sleepSend (secs : Rat)
  | startLoopTask
  | connectCalled
  | transmit (data : List Nat) (dest : Addr) (oc : SendOutcome) (underLock : Bool)
  | localCall (data : List Nat)
  | localDiag (server : Bool) (dest : Addr) (code : Nat)
  | remoteCall (data : List Nat)
  | logIgnoring
  | logUnknown (src : Addr)
deriving DecidableEq

/-- The mutable attributes of a `JuiceboxMITM` object, plus `lockHeld`
(whether another task currently holds `self._sending_lock`) and the
oracle counters. `dgram = true` models `self._dgram is not None`. -/
structure MitmState where
  dgram : Bool
  juicebox_addr : Option Addr
  error_timestamp_list : List Int
  error_count : Nat
  lockHeld : Bool
  clock : Nat
  bindIdx : Nat
  sendIdx : Nat
  localIdx : Nat
  remoteIdx : Nat
  loopIdx : Nat
deriving DecidableEq

/-- Construction-time configuration together with the constants imported
from `const` (whose values are not among the provided sources, so they
stay parameters). -/
structure Cfg where
  jpp_addr : Addr
  enelx_addr : Addr
  ignore_remote : Bool
  MAX_CONNECT_ATTEMPT : Nat
  MAX_ERROR_COUNT : Nat
  ERROR_LOOKBACK_MIN : Int

/-- `SEND_DATA_RETRIES = 3` (line 17). -/
def SEND_DATA_RETRIES : Nat := 3

/-- The environment: oracles resolving each effectful primitive, indexed
by how many calls of that primitive happened before. -/
structure Env where
  timeAt : Nat → Int
  bindOk : Nat → Bool
  sendEv : Nat → SendOutcome
  localH : Nat → List Nat
  remoteH : Nat → List Nat
  loopEv : Nat → LoopEv

/-- The list update of `_add_error` (lines 229-234): append `now`, then
keep exactly the entries strictly newer than
`now - ERROR_LOOKBACK_MIN * 60`.  The code reads the clock twice inside
the call; both reads are modelled as the same instant `now`. -/
def addErrorPure (lookbackMin now : Int) (l : List Int) : List Int :=
  (l ++ [now]).filter (fun el => decide (now - lookbackMin * 60 < el))

/-- The pruning rule as the specification's claim states it: keep exactly
the timestamps in the closed window `[now − LOOKBACK·60, now]`. -/
def addErrorClosedSpec (lookbackMin now : Int) (l : List Int) : List Int :=
  (l ++ [now]).filter
    (fun el => decide (now - lookbackMin * 60 ≤ el) && decide (el ≤ now))

/-- `_add_error` as a state update (lines 228-236): new timestamp list and
`error_count` set to its length. -/
def add_error (lookbackMin now : Int) (s : MitmState) : MitmState :=
  let lst := addErrorPure lookbackMin now s.error_timestamp_list
  { s with error_timestamp_list := lst, error_count := lst.length }

/-- `await self._add_error()`: draw `now` from the clock oracle and apply
`add_error`; also yields the trace event recording the fault. -/
def addErrorS (cfg : Cfg) (env : Env) (s : MitmState) : MitmState × MEvent :=
  let now := env.timeAt s.clock
  (add_error cfg.ERROR_LOOKBACK_MIN now { s with clock := s.clock + 1 },
   .errorRecorded now)

/-- Drops the socket reference (`self._dgram = None`). -/
def dropSock (s : MitmState) : MitmState := { s with dgram := false }

/-- Advances the transmit oracle counter (one `self._dgram.send` call). -/
def bumpSend (s : MitmState) : MitmState := { s with sendIdx := s.sendIdx + 1 }

/-- Advances the local-transform oracle counter. -/
def bumpLocal (s : MitmState) : MitmState :=
  { s with localIdx := s.localIdx + 1 }

/-- Advances the remote-transform oracle counter. -/
def bumpRemote (s : MitmState) : MitmState :=
  { s with remoteIdx := s.remoteIdx + 1 }

/-- Advances the receive oracle counter. -/
def bumpLoop (s : MitmState) : MitmState := { s with loopIdx := s.loopIdx + 1 }

/-- The `while` loop of `_connect` (lines 62-86).  `attempt` is
`connect_attempt`; the loop runs while no socket is held, the attempt
number is within `MAX_CONNECT_ATTEMPT` and the error count is below
`MAX_ERROR_COUNT`.  A bind either succeeds or raises `OSError`
(`env.bindOk`); on failure a fault is recorded and the socket stays
dropped; either way the iteration ends with `asyncio.sleep(5)`.  The bind
runs under the sending lock only when that lock is not already held
(lines 73-77).  The fuel argument only bounds the recursion; every use
supplies at least `MAX_CONNECT_ATTEMPT + 1`, which the guard makes
sufficient. -/
def connectGo (cfg : Cfg) (env : Env) :
    Nat → Nat → MitmState → MitmState × List MEvent
  | 0, _, s => (s, [])
  | fuel + 1, attempt, s =>
    if s.dgram = false ∧ attempt ≤ cfg.MAX_CONNECT_ATTEMPT ∧
        s.error_count < cfg.MAX_ERROR_COUNT then
      if env.bindOk s.bindIdx then
        let s1 := { s with dgram := true, bindIdx := s.bindIdx + 1 }
        let r := connectGo cfg env fuel (attempt + 1) s1
        (r.1, .bindTry (!s.lockHeld) true :: .sleepConnect :: r.2)
      else
        let s1 := { s with dgram := false, bindIdx := s.bindIdx + 1 }
        let s2 := addErrorS cfg env s1
        let r := connectGo cfg env fuel (attempt + 1) s2.1
        (r.1, .bindTry (!s.lockHeld) false :: s2.2 :: .sleepConnect :: r.2)
    else (s, [])

/-- Result of a modelled call: final state, trace, and the exception it
raises (`none` = returns normally; for the receive loop, `none` = still
running when the fuel ran out). -/
structure MRes where
  st : MitmState
  tr : List MEvent
  exc : Option PyExc
deriving DecidableEq

/-- `_connect` (lines 61-92): run the retry loop, then raise
`ChildProcessError` («unable to start») iff no socket was obtained.  On
success the restart of the receive-loop task (lines 89-91) lies outside
the modelled state and is represented by the `startLoopTask` event. -/
def connectRun (cfg : Cfg) (env : Env) (s : MitmState) : MRes :=
  let r := connectGo cfg env (cfg.MAX_CONNECT_ATTEMPT + 1) 1 s
  if r.1.dgram = false then ⟨r.1, r.2, some .childUnableToStart⟩
  else ⟨r.1, r.2 ++ [.startLoopTask], none⟩

/-- Result of `send_data`'s loop: state, trace, propagated exception, and
the `sent` flag. -/
structure SendRes where
  st : MitmState
  tr : List MEvent
  exc : Option PyExc
  sent : Bool
deriving DecidableEq

/-- The `if self._dgram is None: await self._connect()` prologue of each
`send_data` iteration (lines 187-189). -/
def sendPre (cfg : Cfg) (env : Env) (s : MitmState) :
    MitmState × List MEvent × Option PyExc :=
  if s.dgram = false then
    let r := connectRun cfg env s
    (r.st, .connectCalled :: r.tr, r.exc)
  else (s, [], none)

/-- The `while not sent and send_attempt <= SEND_DATA_RETRIES` loop of
`send_data` (lines 182-210), recursing on the number of attempts left.
Per iteration: reconnect if no socket is held; transmit under the lock
with the 10 s timeout; `TransportClosed` records a fault and drops the
socket, `TimeoutError` records a fault; both retry.  Any other `OSError`
from the transport propagates.  Every completed iteration ends with
`asyncio.sleep(max(blocking_time, 0.1))`. -/
def sendGo (cfg : Cfg) (env : Env) (data : List Nat) (dest : Addr)
    (minDelay : Rat) : Nat → MitmState → SendRes
  | 0, s => ⟨s, [], none, false⟩
  | n + 1, s =>
    let pre := sendPre cfg env s
    match pre.2.2 with
    | some e => ⟨pre.1, pre.2.1, some e, false⟩
    | none =>
      let s1 := pre.1
      let tr1 := pre.2.1
      match env.sendEv s1.sendIdx with
      | .ok =>
        ⟨bumpSend s1, tr1 ++ [.transmit data dest .ok true,
                     .sleepSend (max minDelay (1 / 10))], none, true⟩
      | .closed =>
        let s2 := addErrorS cfg env (dropSock (bumpSend s1))
        let r := sendGo cfg env data dest minDelay n s2.1
        ⟨r.st, tr1 ++ (.transmit data dest .closed true :: s2.2 ::
            .sleepSend (max minDelay (1 / 10)) :: r.tr), r.exc, r.sent⟩
      | .timeout =>
        let s2 := addErrorS cfg env (bumpSend s1)
        let r := sendGo cfg env data dest minDelay n s2.1
        ⟨r.st, tr1 ++ (.transmit data dest .timeout true :: s2.2 ::
            .sleepSend (max minDelay (1 / 10)) :: r.tr), r.exc, r.sent⟩
      | .osError code =>
        ⟨bumpSend s1, tr1 ++ [.transmit data dest (.osError code) true],
         some (.osErr code), false⟩

/-- `send_data` (lines 177-212): run the loop; if it ends without a
successful transmission and without a propagating exception, raise
`ChildProcessError` («unable to send»). -/
def send_data (cfg : Cfg) (env : Env) (data : List Nat) (dest : Addr)
    (minDelay : Rat) (s : MitmState) : MRes :=
  let r := sendGo cfg env data dest minDelay SEND_DATA_RETRIES s
  match r.exc with
  | some e => ⟨r.st, r.tr, some e⟩
  | none =>
    if r.sent then ⟨r.st, r.tr, none⟩
    else ⟨r.st, r.tr, some .childUnableToSend⟩

/-- The `except OSError` clause shared by both forwarding branches of
`_main_mitm_handler` (lines 147-156 and 162-171): an `OSError` (which,
in Python, includes the `ChildProcessError`s coming out of `send_data` /
`_connect`) is caught; the warning line then evaluates
`errno.errorcode[e.errno]`, which raises `KeyError` when `errno` is
`None`; otherwise the synthetic diagnostic is passed to the local
transform and a fault is recorded.  A non-`OSError` propagates. -/
def handlerCatch (cfg : Cfg) (env : Env) (server : Bool) (dest : Addr)
    (r : MRes) : MRes :=
  match r.exc with
  | none => r
  | some e =>
    if e.isOSError then
      match e.errnoVal with
      | none => ⟨r.st, r.tr, some .keyError⟩
      | some code =>
        let s3 := addErrorS cfg env (bumpLocal r.st)
        ⟨s3.1, r.tr ++ [.localDiag server dest code, s3.2], none⟩
    else r

/-- `_main_mitm_handler` (lines 134-175).  `None` payload or source
returns immediately.  A source whose host differs from the EnelX host
(re)sets `self._juicebox_addr`; device traffic goes through the local
transform and, unless remote forwarding is ignored, on to EnelX; EnelX
traffic goes through the remote transform and on to the device once one
is known; anything else is logged and dropped. -/
def main_mitm_handler (cfg : Cfg) (env : Env) (data : Option (List Nat))
    (from_addr : Option Addr) (s : MitmState) : MRes :=
  match data, from_addr with
  | some d, some fa =>
    let s0 := if fa.host ≠ cfg.enelx_addr.host
      then { s with juicebox_addr := some fa } else s
    if s0.juicebox_addr = some fa then
      let d2 := env.localH s0.localIdx
      let s1 := bumpLocal s0
      if cfg.ignore_remote = false then
        let r := send_data cfg env d2 cfg.enelx_addr (1 / 10) s1
        let r2 := handlerCatch cfg env true cfg.enelx_addr r
        ⟨r2.st, .localCall d :: r2.tr, r2.exc⟩
      else ⟨s1, [.localCall d], none⟩
    else
      match s0.juicebox_addr with
      | some jb =>
        if fa = cfg.enelx_addr then
          if cfg.ignore_remote = false then
            let d2 := env.remoteH s0.remoteIdx
            let s1 := bumpRemote s0
            let r := send_data cfg env d2 jb (1 / 10) s1
            let r2 := handlerCatch cfg env false jb r
            ⟨r2.st, .remoteCall d :: r2.tr, r2.exc⟩
          else ⟨s0, [.logIgnoring], none⟩
        else ⟨s0, [.logUnknown fa], none⟩
      | none => ⟨s0, [.logUnknown fa], none⟩
  | _, _ => ⟨s, [], none⟩

/-- `_mitm_loop` (lines 94-132), recursing on fuel (`exc = none` with the
fuel exhausted means the loop is still alive).  While `error_count <
MAX_ERROR_COUNT`: with no socket held, record a fault and `_connect`
(whose failure propagates); otherwise receive — transport-closed and the
120 s receive timeout record a fault and drop the socket; a received
datagram is dispatched, a dispatch exceeding the 10 s handler timeout
records a fault and drops the socket (partial effects of the cancelled
dispatch are not modelled), and any exception the dispatch raises other
than `TimeoutError` propagates out of the loop.  Once the count reaches
`MAX_ERROR_COUNT`, the loop exits and raises `ChildProcessError`
(«too many errors»). -/
def mitm_loop (cfg : Cfg) (env : Env) : Nat → MitmState → MRes
  | 0, s => ⟨s, [], none⟩
  | n + 1, s =>
    if s.error_count < cfg.MAX_ERROR_COUNT then
      if s.dgram = false then
        let s1 := addErrorS cfg env s
        let rc := connectRun cfg env s1.1
        match rc.exc with
        | some e => ⟨rc.st, s1.2 :: .connectCalled :: rc.tr, some e⟩
        | none =>
          let r := mitm_loop cfg env n rc.st
          ⟨r.st, s1.2 :: .connectCalled :: (rc.tr ++ r.tr), r.exc⟩
      else
        let s1 := bumpLoop s
        match env.loopEv s.loopIdx with
        | .recvClosed =>
          let s2 := addErrorS cfg env (dropSock s1)
          let r := mitm_loop cfg env n s2.1
          ⟨r.st, s2.2 :: r.tr, r.exc⟩
        | .recvTimeout =>
          let s2 := addErrorS cfg env (dropSock s1)
          let r := mitm_loop cfg env n s2.1
          ⟨r.st, s2.2 :: r.tr, r.exc⟩
        | .recvData d src =>
          let h := main_mitm_handler cfg env (some d) (some src) s1
          match h.exc with
          | some e => ⟨h.st, h.tr, some e⟩
          | none =>
            let r := mitm_loop cfg env n h.st
            ⟨r.st, h.tr ++ r.tr, r.exc⟩
        | .recvDataHT _ _ =>
          let s2 := addErrorS cfg env (dropSock s1)
          let r := mitm_loop cfg env n s2.1
          ⟨r.st, s2.2 :: r.tr, r.exc⟩
    else ⟨s, [], some .childTooManyErrors⟩

/-- Trace bookkeeping: count the events satisfying `p`. -/
def countE (p : MEvent → Bool) (tr : List MEvent) : Nat :=
  (tr.filter p).length

/-- Recognizer for bind attempts. -/
def isBindTry : MEvent → Bool
  | .bindTry _ _ => true
  | _ => false

/-- Recognizer for failed bind attempts. -/
def isBindFail : MEvent → Bool
  | .bindTry _ false => true
  | _ => false

/-- Recognizer for recorded faults. -/
def isErrorRec : MEvent → Bool
  | .errorRecorded _ => true
  | _ => false

/-- Recognizer for the fixed 5 s reconnect sleeps. -/
def isSleepConnect : MEvent → Bool
  | .sleepConnect => true
  | _ => false

/-- Recognizer for the per-attempt send sleeps. -/
def isSleepSend : MEvent → Bool
  | .sleepSend _ => true
  | _ => false

/-- Recognizer for transmit attempts. -/
def isTransmit : MEvent → Bool
  | .transmit _ _ _ _ => true
  | _ => false

/-- The fault record obtained by recording faults at the first `k` clock
instants, starting from an empty record. -/
def recordUpTo (L : Int) (t : Nat → Int) : Nat → List Int
  | 0 => []
  | k + 1 => addErrorPure L (t k) (recordUpTo L t k)

/-- How many of the fault instants `t 0 … t k` lie inside the lookback
window ending at instant `t k` (with the strict lower bound the code
uses). -/
def windowCount (L : Int) (t : Nat → Int) (k : Nat) : Nat :=
  ((List.range (k + 1)).filter (fun j => decide (t k - L * 60 < t j))).length


/-- An all-clear relay state: no socket, no learned device address, empty
fault record, lock free, all oracle counters at zero. -/
def mitmState0 : MitmState :=
  ⟨false, none, [], 0, false, 0, 0, 0, 0, 0, 0⟩

/-- A concrete configuration for witnesses: device-side listen endpoint
host 0, EnelX host 1, remote forwarding enabled, 3 connect attempts,
error threshold 5, lookback 1 minute. -/
def cfg0 : Cfg :=
  ⟨⟨0, 8047⟩, ⟨1, 8042⟩, false, 3, 5, 1⟩

/-- A benign environment: clock ticking once per second, binds succeed,
transmissions succeed, transforms return fixed bytes, receive times out. -/
def env0 : Env :=
  ⟨fun k => k, fun _ => true, fun _ => .ok, fun _ => [7],
   fun _ => [8], fun _ => .recvTimeout⟩


/-- `true` unless the event is a transmission performed without holding
the sending lock. -/
def transmitUnderLock : MEvent → Bool
  | .transmit _ _ _ ul => ul
  | _ => true


/-- `true` unless the event is a per-attempt send sleep with a duration
other than `max(minDelay, 0.1)`. -/
def sleepValIs (md : Rat) : MEvent → Bool
  | .sleepSend q => q == max md (1 / 10)
  | _ => true


/-- The run invariant tying the fault record to the clock oracle: the
timestamp list is exactly the fold of `_add_error` over the clock values
consumed so far, and the cached count is its length. -/
def RecordInv (cfg : Cfg) (env : Env) (s : MitmState) : Prop :=
  s.error_timestamp_list =
    recordUpTo cfg.ERROR_LOOKBACK_MIN env.timeAt s.clock ∧
  s.error_count = s.error_timestamp_list.length

/-- The first element left by `dropWhile` falsifies the predicate. -/
theorem dropWhile_head_eq_false {α : Type} (p : α → Bool) :
    ∀ (l : List α) (x : α) (rest : List α),
      l.dropWhile p = x :: rest → p x = false := by
  intro l
  induction l with
  | nil => intro x rest h; simp [List.dropWhile] at h
  | cons a t ih =>
    intro x rest h
    rw [List.dropWhile_cons] at h
    by_cases hpa : p a = true
    · rw [if_pos hpa] at h
      exact ih x rest h
    · rw [if_neg hpa] at h
      cases h
      simpa using hpa

/-- If the part at and after the first `!` has length 5, the original
character list is payload ++ `!` ++ the four final characters. -/
theorem bang_split_recompose (l : List Char)
    (h : (l.dropWhile (fun c => c != '!')).length = 5) :
    l = l.takeWhile (fun c => c != '!') ++
        ('!' :: ((l.dropWhile (fun c => c != '!')).drop 1)) := by
  cases hr : l.dropWhile (fun c => c != '!') with
  | nil => rw [hr] at h; simp at h
  | cons x rest =>
    have hsplit := List.takeWhile_append_dropWhile
      (p := fun c => c != '!') (l := l)
    have hx : (fun c => c != '!') x = false :=
      dropWhile_head_eq_false _ l x rest hr
    have hx' : x = '!' := by simpa using hx
    rw [hr, hx'] at hsplit
    simpa [hr] using hsplit.symm

/-- The round trip at the character-list level: a successful parse
decomposes the input so that `build` recomposes it exactly. -/
theorem build_from_text (ck : List Char → List Char) (l : List Char)
    (m : TextMsg) (h : juicebox_message_from_text ck l = .ok m) :
    m.build = l := by
  unfold juicebox_message_from_text at h
  by_cases hlen : (l.dropWhile (fun c => c != '!')).length = 5
  · rw [if_pos hlen] at h
    have hre := bang_split_recompose l hlen
    by_cases he : ((l.dropWhile (fun c => c != '!')).drop 1).drop 3 = ['$']
    · rw [if_pos he] at h
      split at h
      · cases h
        simp only [TextMsg.build, MsgEnd.term]
        rw [← he, List.take_append_drop]
        exact hre.symm
      · cases h
    · rw [if_neg he] at h
      by_cases he2 : ((l.dropWhile (fun c => c != '!')).drop 1).drop 3 = [':']
      · rw [if_pos he2] at h
        split at h
        · cases h
          simp only [TextMsg.build, MsgEnd.term]
          rw [← he2, List.take_append_drop]
          exact hre.symm
        · cases h
      · rw [if_neg he2] at h
        cases h
  · rw [if_neg hlen] at h
    cases h

/-- C1.  Round trip: for every wire string `s` — command (legacy or
widened variant) or status — that the classifier parses successfully,
`build()` returns exactly `s`, byte for byte, whatever checksum function
is in force. -/
theorem c1_build_parse_roundtrip (ck : List Char → List Char) (s : String)
    (m : TextMsg) (h : juicebox_message_from_string ck s = .ok m) :
    m.buildStr = s := by
  have := build_from_text ck s.data m h
  rw [TextMsg.buildStr, this]

/-- C1 witness: the three literal wire strings of `src/test_message.py`
(a widened command, a legacy command, and a status message) parse
successfully and `build()` reproduces each of them byte for byte. -/
theorem c1_roundtrip_witness :
    (juicebox_message_from_string (fun _ => ['5', 'N', '5'])
        "CMD41325A0040M040C006S638!5N5$" =
      .ok ⟨.cmd, "CMD41325A0040M040C006S638".data, ['5', 'N', '5']⟩) ∧
    TextMsg.buildStr ⟨.cmd, "CMD41325A0040M040C006S638".data, ['5', 'N', '5']⟩ =
      "CMD41325A0040M040C006S638!5N5$" ∧
    (juicebox_message_from_string (fun _ => ['3', '1', 'Y'])
        "CMD62210A20M18C006S006!31Y$" =
      .ok ⟨.cmd, "CMD62210A20M18C006S006".data, ['3', '1', 'Y']⟩) ∧
    TextMsg.buildStr ⟨.cmd, "CMD62210A20M18C006S006".data, ['3', '1', 'Y']⟩ =
      "CMD62210A20M18C006S006!31Y$" ∧
    (juicebox_message_from_string (fun _ => ['5', '5', 'M'])
        "0910042001260513476122621631:v09u,s627,F10,u01254993,V2414,L00004555804,S01,T08,M0040,C0040,m0040,t29,i75,e00000,f5999,r61,b000,B0000000!55M:" =
      .ok ⟨.stat,
        "0910042001260513476122621631:v09u,s627,F10,u01254993,V2414,L00004555804,S01,T08,M0040,C0040,m0040,t29,i75,e00000,f5999,r61,b000,B0000000".data,
        ['5', '5', 'M']⟩) ∧
    TextMsg.buildStr ⟨.stat,
        "0910042001260513476122621631:v09u,s627,F10,u01254993,V2414,L00004555804,S01,T08,M0040,C0040,m0040,t29,i75,e00000,f5999,r61,b000,B0000000".data,
        ['5', '5', 'M']⟩ =
      "0910042001260513476122621631:v09u,s627,F10,u01254993,V2414,L00004555804,S01,T08,M0040,C0040,m0040,t29,i75,e00000,f5999,r61,b000,B0000000!55M:" :=
  ⟨by decide,
   c1_build_parse_roundtrip (fun _ => ['5', 'N', '5'])
     "CMD41325A0040M040C006S638!5N5$" _ (by decide),
   by decide,
   c1_build_parse_roundtrip (fun _ => ['3', '1', 'Y'])
     "CMD62210A20M18C006S006!31Y$" _ (by decide),
   by decide,
   c1_build_parse_roundtrip (fun _ => ['5', '5', 'M'])
     "0910042001260513476122621631:v09u,s627,F10,u01254993,V2414,L00004555804,S01,T08,M0040,C0040,m0040,t29,i75,e00000,f5999,r61,b000,B0000000!55M:"
     _ (by decide)⟩


/-- C3.  Classification totality versus validation failure: (i) any byte
sequence that is not text-decodable (it contains a non-ASCII byte, as the
documented binary blobs do) is classified by `juicebox_message_from_bytes`
as an `EncryptedMessage` and never produces a failure; (ii) the
text-shaped input `"g4rbl3d"` is rejected by
`juicebox_message_from_string` with an invalid-message failure, for every
checksum function. -/
theorem c3_classification_total (ck : List Char → List Char)
    (data : List Nat)
    (h : data.all (fun b => decide (b < 128)) = false) :
    juicebox_message_from_bytes ck data = .ok (.encrypted data) ∧
    juicebox_message_from_string ck "g4rbl3d" = .error () := by
  constructor
  · rw [juicebox_message_from_bytes, if_neg (by rw [h]; exact Bool.false_ne_true)]
  · rfl

/-- C3 witness: the documented hex-decoded blob contains non-ASCII bytes,
is classified as an encrypted message, and `"g4rbl3d"` fails. -/
theorem c3_classification_witness :
    encryptedBlob.all (fun b => decide (b < 128)) = false ∧
    juicebox_message_from_bytes (fun _ => []) encryptedBlob =
      .ok (.encrypted encryptedBlob) ∧
    juicebox_message_from_string (fun _ => []) "g4rbl3d" = .error () :=
  ⟨by decide,
   (c3_classification_total (fun _ => []) encryptedBlob (by decide)).1,
   (c3_classification_total (fun _ => []) encryptedBlob (by decide)).2⟩

/-! ## C7: the fault recorder `_add_error` -/

/-- C7 counterexample: the claim asserts the record is pruned to the
closed window `[now − LOOKBACK·60, now]`, retaining a timestamp exactly
LOOKBACK minutes old.  With `LOOKBACK = 1` minute, `now = 60` and the
record `[0]`, the timestamp `0` lies in the claimed closed window `[0,
60]`, yet the code's strict filter (`el > time_cutoff`, line 232) drops
it: the state function keeps only `[60]`. -/
theorem c7_closed_window_counterexample :
    addErrorPure 1 60 [0] ≠ addErrorClosedSpec 1 60 [0] ∧
    (0 : Int) ∈ addErrorClosedSpec 1 60 [0] ∧
    (0 : Int) ∉ addErrorPure 1 60 [0] ∧
    (add_error 1 60
      { mitmState0 with error_timestamp_list := [0], error_count := 1 }
      ).error_timestamp_list = [60] := by
  refine ⟨by decide, by decide, by decide, by decide⟩

/-- C7 (amended): every call to `_add_error` appends the current time to
the fault-timestamp list, prunes the list to exactly those timestamps
strictly greater than `now − LOOKBACK` minutes (a half-open window: a
timestamp exactly LOOKBACK minutes old is dropped, and no upper bound is
enforced), and sets the live error count to the resulting list length. -/
theorem c7_add_error_amended (L now : Int) (s : MitmState) (t : Int) :
    ((t ∈ (add_error L now s).error_timestamp_list) ↔
      ((t ∈ s.error_timestamp_list ∨ t = now) ∧ now - L * 60 < t)) ∧
    (add_error L now s).error_count =
      (add_error L now s).error_timestamp_list.length ∧
    (now - L * 60) ∉ (add_error L now s).error_timestamp_list := by
  refine ⟨?_, rfl, ?_⟩
  · simp [add_error, addErrorPure, List.mem_filter, List.mem_append]
    tauto
  · intro hmem
    rw [add_error] at hmem
    simp only [addErrorPure, List.mem_filter] at hmem
    have h2 := hmem.2
    simp at h2

/-- C7 amended-claim witness at concrete inputs: with lookback 1 minute,
`now = 60` and prior record `[0]`, the new instant is retained and the
boundary timestamp `0 = now − 60` is dropped. -/
theorem c7_add_error_amended_witness :
    ((60 : Int) ∈ (add_error 1 60
      { mitmState0 with error_timestamp_list := [0], error_count := 1 }
      ).error_timestamp_list) ∧
    ¬ ((0 : Int) ∈ (add_error 1 60
      { mitmState0 with error_timestamp_list := [0], error_count := 1 }
      ).error_timestamp_list) :=
  ⟨(c7_add_error_amended 1 60
      { mitmState0 with error_timestamp_list := [0], error_count := 1 }
      60).1.mpr (by decide),
   fun hm => absurd ((c7_add_error_amended 1 60
      { mitmState0 with error_timestamp_list := [0], error_count := 1 }
      0).1.mp hm) (by decide)⟩

/-! ## C10: the `None` guard of `_main_mitm_handler` -/

/-- C10.  A `None` payload or `None` source address makes the handler
return immediately: the state (in particular `self._juicebox_addr`, the
socket reference and the error count) is exactly the input state, the
trace is empty (no transmission, no transform invocation), and no
exception is raised. -/
theorem c10_none_input_no_effect (cfg : Cfg) (env : Env)
    (data : Option (List Nat)) (from_addr : Option Addr) (s : MitmState)
    (h : data = none ∨ from_addr = none) :
    main_mitm_handler cfg env data from_addr s = ⟨s, [], none⟩ := by
  cases data with
  | none => cases from_addr <;> rfl
  | some d =>
    cases from_addr with
    | none => rfl
    | some fa =>
      rcases h with h | h <;> simp at h

/-- C10 witness: a concrete `None`-payload dispatch leaves the state
untouched with an empty trace. -/
theorem c10_none_input_witness :
    main_mitm_handler cfg0 env0 none (some ⟨2, 2000⟩) mitmState0 =
      ⟨mitmState0, [], none⟩ :=
  c10_none_input_no_effect cfg0 env0 none (some ⟨2, 2000⟩) mitmState0
    (Or.inl rfl)

/-! ## Lemmas about `_connect` -/

/-- Counting events distributes over trace concatenation. -/
theorem countE_append (p : MEvent → Bool) (t1 t2 : List MEvent) :
    countE p (t1 ++ t2) = countE p t1 + countE p t2 := by
  simp [countE, List.filter_append]

/-- Bind attempts made by the `_connect` loop are bounded by the attempts
that remain permitted. -/
theorem connectGo_bind_bound (cfg : Cfg) (env : Env) :
    ∀ (fuel attempt : Nat) (s : MitmState),
      countE isBindTry (connectGo cfg env fuel attempt s).2 ≤
        cfg.MAX_CONNECT_ATTEMPT + 1 - attempt := by
  intro fuel
  induction fuel with
  | zero => intro attempt s; simp [connectGo, countE]
  | succ n ih =>
    intro attempt s
    simp only [connectGo]
    split
    · rename_i hc
      split
      · have h := ih (attempt + 1) { s with dgram := true, bindIdx := s.bindIdx + 1 }
        simp only [countE, List.filter] at h ⊢
        simp [isBindTry, isSleepConnect] at h ⊢
        omega
      · have h := ih (attempt + 1)
          (addErrorS cfg env { s with dgram := false, bindIdx := s.bindIdx + 1 }).1
        simp only [countE, List.filter] at h ⊢
        simp [isBindTry, isSleepConnect, isErrorRec, addErrorS] at h ⊢
        omega
    · simp [countE]

/-- In the `_connect` loop every attempt sleeps 5 s exactly once, and a
fault is recorded exactly at the failed bind attempts. -/
theorem connectGo_counts (cfg : Cfg) (env : Env) :
    ∀ (fuel attempt : Nat) (s : MitmState),
      countE isSleepConnect (connectGo cfg env fuel attempt s).2 =
        countE isBindTry (connectGo cfg env fuel attempt s).2 ∧
      countE isErrorRec (connectGo cfg env fuel attempt s).2 =
        countE isBindFail (connectGo cfg env fuel attempt s).2 := by
  intro fuel
  induction fuel with
  | zero => intro attempt s; simp [connectGo, countE]
  | succ n ih =>
    intro attempt s
    simp only [connectGo]
    split
    · split
      · have h := ih (attempt + 1) { s with dgram := true, bindIdx := s.bindIdx + 1 }
        simp only [countE, List.filter] at h ⊢
        simpa [isBindTry, isSleepConnect, isErrorRec, isBindFail] using h
      · have h := ih (attempt + 1)
          (addErrorS cfg env { s with dgram := false, bindIdx := s.bindIdx + 1 }).1
        simp only [countE, List.filter] at h ⊢
        simpa [isBindTry, isSleepConnect, isErrorRec, isBindFail, addErrorS] using h
    · simp [countE]

/-- Every event the `_connect` loop emits is a bind attempt, a recorded
fault, or the 5 s sleep. -/
theorem connectGo_mem (cfg : Cfg) (env : Env) :
    ∀ (fuel attempt : Nat) (s : MitmState) (e : MEvent),
      e ∈ (connectGo cfg env fuel attempt s).2 →
      (isBindTry e || isErrorRec e || isSleepConnect e) = true := by
  intro fuel
  induction fuel with
  | zero => intro attempt s e he; simp [connectGo] at he
  | succ n ih =>
    intro attempt s e he
    simp only [connectGo] at he
    split at he
    · split at he
      · simp only [List.mem_cons] at he
        rcases he with rfl | rfl | he
        · rfl
        · rfl
        · exact ih _ _ e he
      · simp only [List.mem_cons] at he
        rcases he with rfl | rfl | rfl | he
        · rfl
        · rfl
        · rfl
        · exact ih _ _ e he
    · simp at he

/-- `_connect`'s loop does not touch the device address, the oracle
counters of the other components, or the lock. -/
theorem connectGo_preserves (cfg : Cfg) (env : Env) :
    ∀ (fuel attempt : Nat) (s : MitmState),
      (connectGo cfg env fuel attempt s).1.juicebox_addr = s.juicebox_addr ∧
      (connectGo cfg env fuel attempt s).1.sendIdx = s.sendIdx ∧
      (connectGo cfg env fuel attempt s).1.localIdx = s.localIdx ∧
      (connectGo cfg env fuel attempt s).1.remoteIdx = s.remoteIdx ∧
      (connectGo cfg env fuel attempt s).1.loopIdx = s.loopIdx ∧
      (connectGo cfg env fuel attempt s).1.lockHeld = s.lockHeld := by
  intro fuel
  induction fuel with
  | zero => intro attempt s; exact ⟨rfl, rfl, rfl, rfl, rfl, rfl⟩
  | succ n ih =>
    intro attempt s
    simp only [connectGo]
    split
    · split
      · exact ih (attempt + 1) { s with dgram := true, bindIdx := s.bindIdx + 1 }
      · exact ih (attempt + 1)
          (addErrorS cfg env { s with dgram := false, bindIdx := s.bindIdx + 1 }).1
    · exact ⟨rfl, rfl, rfl, rfl, rfl, rfl⟩

/-- The `underLock` flag of every bind attempt in the `_connect` loop
records whether the sending lock was free when `_connect` started (the
loop itself never changes the lock state). -/
theorem connectGo_bind_underLock (cfg : Cfg) (env : Env) :
    ∀ (fuel attempt : Nat) (s : MitmState) (ul ok : Bool),
      MEvent.bindTry ul ok ∈ (connectGo cfg env fuel attempt s).2 →
      ul = !s.lockHeld := by
  intro fuel
  induction fuel with
  | zero => intro attempt s ul ok he; simp [connectGo] at he
  | succ n ih =>
    intro attempt s ul ok he
    simp only [connectGo] at he
    split at he
    · split at he
      · simp only [List.mem_cons] at he
        rcases he with he | he | he
        · injection he with h1 h2
        · simp at he
        · have := ih _ _ ul ok he
          simpa using this
      · simp only [List.mem_cons] at he
        rcases he with he | he | he | he
        · injection he with h1 h2
        · simp [addErrorS] at he
        · simp at he
        · have := ih _ _ ul ok he
          simpa [addErrorS, add_error] using this
    · simp at he


/-- Events of a full `_connect` call: the loop's events or the final
`startLoopTask` marker. -/
theorem connectRun_mem (cfg : Cfg) (env : Env) (s : MitmState) (e : MEvent)
    (he : e ∈ (connectRun cfg env s).tr) :
    (isBindTry e || isErrorRec e || isSleepConnect e) = true ∨
      e = .startLoopTask := by
  simp only [connectRun] at he
  split at he
  · exact Or.inl (connectGo_mem cfg env _ 1 s e he)
  · rw [List.mem_append] at he
    rcases he with he | he
    · exact Or.inl (connectGo_mem cfg env _ 1 s e he)
    · simp at he
      exact Or.inr he

/-- `_connect` does not touch the device address, the other components'
oracle counters, or the lock. -/
theorem connectRun_preserves (cfg : Cfg) (env : Env) (s : MitmState) :
    (connectRun cfg env s).st.juicebox_addr = s.juicebox_addr ∧
    (connectRun cfg env s).st.sendIdx = s.sendIdx ∧
    (connectRun cfg env s).st.localIdx = s.localIdx ∧
    (connectRun cfg env s).st.remoteIdx = s.remoteIdx ∧
    (connectRun cfg env s).st.loopIdx = s.loopIdx ∧
    (connectRun cfg env s).st.lockHeld = s.lockHeld := by
  simp only [connectRun]
  split
  · exact connectGo_preserves cfg env _ 1 s
  · exact connectGo_preserves cfg env _ 1 s

/-- `_connect` emits no transmissions and no per-attempt send sleeps. -/
theorem connectRun_no_send_events (cfg : Cfg) (env : Env) (s : MitmState) :
    countE isTransmit (connectRun cfg env s).tr = 0 ∧
    countE isSleepSend (connectRun cfg env s).tr = 0 := by
  constructor
  all_goals
    rw [countE, List.length_eq_zero, List.filter_eq_nil_iff]
    intro e he
    rcases connectRun_mem cfg env s e he with hk | rfl
    · cases e <;> simp_all [isBindTry, isErrorRec, isSleepConnect,
        isTransmit, isSleepSend]
    · simp [isTransmit, isSleepSend]

/-! ## C6: `_connect` -/

/-- C6.  `_connect` performs at most `MAX_CONNECT_ATTEMPT` bind attempts;
every attempt is followed by exactly one fixed 5 s sleep, success or
failure; a fault is recorded exactly at each failed bind; the fatal
«unable to start» failure is raised iff the loop exits without a socket;
and the loop body runs only while no socket is held and the fault count
is below `MAX_ERROR_COUNT` (a held socket yields zero attempts and no
failure; an exhausted error budget with no socket yields zero attempts
and the immediate failure). -/
theorem c6_connect_spec (cfg : Cfg) (env : Env) (s : MitmState) :
    countE isBindTry (connectRun cfg env s).tr ≤ cfg.MAX_CONNECT_ATTEMPT ∧
    countE isSleepConnect (connectRun cfg env s).tr =
      countE isBindTry (connectRun cfg env s).tr ∧
    countE isErrorRec (connectRun cfg env s).tr =
      countE isBindFail (connectRun cfg env s).tr ∧
    ((connectRun cfg env s).exc = some .childUnableToStart ↔
      (connectRun cfg env s).st.dgram = false) ∧
    (s.dgram = true → connectRun cfg env s = ⟨s, [.startLoopTask], none⟩) ∧
    (s.dgram = false → cfg.MAX_ERROR_COUNT ≤ s.error_count →
      connectRun cfg env s = ⟨s, [], some .childUnableToStart⟩) := by
  have hb := connectGo_bind_bound cfg env (cfg.MAX_CONNECT_ATTEMPT + 1) 1 s
  have hc := connectGo_counts cfg env (cfg.MAX_CONNECT_ATTEMPT + 1) 1 s
  refine ⟨?_, ?_, ?_, ?_, ?_, ?_⟩
  · simp only [connectRun]
    split
    · simpa using hb
    · rw [countE_append]
      have h0 : countE isBindTry [MEvent.startLoopTask] = 0 := rfl
      omega
  · simp only [connectRun]
    split
    · exact hc.1
    · rw [countE_append, countE_append]
      simpa [countE, isBindTry, isSleepConnect] using hc.1
  · simp only [connectRun]
    split
    · exact hc.2
    · rw [countE_append, countE_append]
      simpa [countE, isBindFail, isErrorRec] using hc.2
  · simp only [connectRun]
    split
    · rename_i h
      simp [h]
    · rename_i h
      simp [h]
  · intro hd
    simp [connectRun, connectGo, hd]
  · intro hd hcnt
    simp [connectRun, connectGo, hd, Nat.not_lt.mpr hcnt]

/-- C6 witness: with the concrete configuration (3 permitted attempts,
error threshold 5) the bind-attempt count is within bound; a call with a
socket already held makes no attempt and succeeds; a call with the error
budget exhausted makes no attempt and fails at once. -/
theorem c6_connect_witness :
    countE isBindTry (connectRun cfg0 env0 mitmState0).tr ≤ 3 ∧
    connectRun cfg0 env0 { mitmState0 with dgram := true } =
      ⟨{ mitmState0 with dgram := true }, [.startLoopTask], none⟩ ∧
    connectRun cfg0 env0 { mitmState0 with error_count := 5 } =
      ⟨{ mitmState0 with error_count := 5 }, [], some .childUnableToStart⟩ :=
  ⟨(c6_connect_spec cfg0 env0 mitmState0).1,
   (c6_connect_spec cfg0 env0 { mitmState0 with dgram := true }).2.2.2.2.1 rfl,
   (c6_connect_spec cfg0 env0
     { mitmState0 with error_count := 5 }).2.2.2.2.2 rfl (by decide)⟩

/-! ## C9: serialization of binds and sends over the shared lock -/

/-- All of `_connect`'s events leave `transmitUnderLock` true (it emits
no transmissions at all). -/
theorem connectRun_all_underLock (cfg : Cfg) (env : Env) (s : MitmState) :
    ((connectRun cfg env s).tr.all transmitUnderLock) = true := by
  rw [List.all_eq_true]
  intro e he
  rcases connectRun_mem cfg env s e he with hk | rfl
  · cases e <;> simp_all [isBindTry, isErrorRec, isSleepConnect,
      transmitUnderLock]
  · rfl

/-- Every transmission in a `send_data` loop run is performed while
holding the sending lock (the `async with self._sending_lock` block,
lines 193-203). -/
theorem sendGo_all_underLock (cfg : Cfg) (env : Env) (d : List Nat)
    (dst : Addr) (md : Rat) :
    ∀ (n : Nat) (s : MitmState),
      ((sendGo cfg env d dst md n s).tr.all transmitUnderLock) = true := by
  intro n
  induction n with
  | zero => intro s; rfl
  | succ k ih =>
    intro s
    simp only [sendGo]
    by_cases hd : s.dgram = false
    · simp only [sendPre, if_pos hd]
      cases hex : (connectRun cfg env s).exc with
      | some e =>
        simp [hex, transmitUnderLock, connectRun_all_underLock cfg env s]
      | none =>
        cases hoc : env.sendEv (connectRun cfg env s).st.sendIdx <;>
          simp [hex, hoc, transmitUnderLock, addErrorS,
            connectRun_all_underLock cfg env s, ih, List.all_append]
    · simp only [sendPre, if_neg hd]
      cases hoc : env.sendEv s.sendIdx <;>
        simp [hoc, transmitUnderLock, addErrorS, ih, List.all_append]

/-- C9 counterexample: the claim says every bind attempt takes place
while holding the shared socket lock.  But when the lock is already held
(an in-flight send of another task), `_connect` takes the
`self._sending_lock.locked()` branch (lines 73-74) and binds WITHOUT
acquiring the lock: the recorded bind attempt carries `underLock =
false`, so that bind is not serialized against the send holding the
lock. -/
theorem c9_lock_counterexample :
    ({ mitmState0 with lockHeld := true } : MitmState).lockHeld = true ∧
    (connectRun cfg0 env0 { mitmState0 with lockHeld := true }).tr =
      [.bindTry false true, .sleepConnect, .startLoopTask] :=
  ⟨rfl, by decide⟩

/-- C9 (amended).  Every datagram transmission of `send_data` runs while
holding the shared sending lock; a bind attempt of `_connect` acquires
and holds the lock only when the lock is free when `_connect` runs — if
the lock is already held at that moment, the bind proceeds without
acquiring it (and is then not serialized against the in-flight send). -/
theorem c9_lock_amended (cfg : Cfg) (env : Env) :
    (∀ (d : List Nat) (dst : Addr) (md : Rat) (s : MitmState),
       ((send_data cfg env d dst md s).tr.all transmitUnderLock) = true) ∧
    (∀ (fuel attempt : Nat) (s : MitmState) (ul ok : Bool),
       MEvent.bindTry ul ok ∈ (connectGo cfg env fuel attempt s).2 →
       ul = !s.lockHeld) := by
  constructor
  · intro d dst md s
    have h := sendGo_all_underLock cfg env d dst md SEND_DATA_RETRIES s
    simp only [send_data]
    split
    · exact h
    · split <;> exact h
  · exact connectGo_bind_underLock cfg env

/-- C9 amended-claim witness: a concrete send's transmissions are all
under the lock, and the bind attempt of a concrete `_connect` run with a
free lock acquired it. -/
theorem c9_lock_witness :
    ((send_data cfg0 env0 [5] cfg0.enelx_addr (1 / 10)
        { mitmState0 with dgram := true }).tr.all transmitUnderLock) = true ∧
    true = !mitmState0.lockHeld :=
  ⟨(c9_lock_amended cfg0 env0).1 [5] cfg0.enelx_addr (1 / 10)
      { mitmState0 with dgram := true },
   (c9_lock_amended cfg0 env0).2 4 1 mitmState0 true true (by decide)⟩

/-! ## C5: `send_data` -/

/-- Counting an event at the head of a trace. -/
theorem countE_cons (p : MEvent → Bool) (e : MEvent) (tr : List MEvent) :
    countE p (e :: tr) = (if p e = true then 1 else 0) + countE p tr := by
  by_cases hpe : p e = true <;> simp [countE, List.filter_cons, hpe] <;>
    try omega

/-- `addErrorS` only touches the clock and the error record. -/
theorem addErrorS_fields (cfg : Cfg) (env : Env) (s : MitmState) :
    (addErrorS cfg env s).1.sendIdx = s.sendIdx ∧
    (addErrorS cfg env s).1.dgram = s.dgram ∧
    (addErrorS cfg env s).1.juicebox_addr = s.juicebox_addr ∧
    (addErrorS cfg env s).1.localIdx = s.localIdx ∧
    (addErrorS cfg env s).1.remoteIdx = s.remoteIdx ∧
    (addErrorS cfg env s).1.loopIdx = s.loopIdx ∧
    (addErrorS cfg env s).1.clock = s.clock + 1 :=
  ⟨rfl, rfl, rfl, rfl, rfl, rfl, rfl⟩

/-- Counting events of the empty trace. -/
theorem countE_nil (p : MEvent → Bool) : countE p [] = 0 := rfl

/-- The event emitted by `addErrorS` is the recorded fault. -/
theorem addErrorS_event (cfg : Cfg) (env : Env) (s : MitmState) :
    (addErrorS cfg env s).2 = .errorRecorded (env.timeAt s.clock) := rfl

/-- The retry behavior of the `send_data` loop, by induction on the
attempts that remain: (a) it makes at most that many transmit attempts;
(b) unless a raw transport `OSError` aborted it, every attempt is
followed by exactly one sleep; (c) it ends unsuccessfully-but-normally
(triggering the «unable to send» failure in `send_data`) exactly when
every permitted attempt was made and each one saw a retryable outcome
(transport-closed or timeout). -/
theorem sendGo_spec (cfg : Cfg) (env : Env) (d : List Nat) (dst : Addr)
    (md : Rat) :
    ∀ (n : Nat) (s : MitmState),
      countE isTransmit (sendGo cfg env d dst md n s).tr ≤ n ∧
      ((∀ c, (sendGo cfg env d dst md n s).exc ≠ some (.osErr c)) →
        countE isSleepSend (sendGo cfg env d dst md n s).tr =
          countE isTransmit (sendGo cfg env d dst md n s).tr) ∧
      (((sendGo cfg env d dst md n s).exc = none ∧
        (sendGo cfg env d dst md n s).sent = false) ↔
        (countE isTransmit (sendGo cfg env d dst md n s).tr = n ∧
         ∀ i < n, (env.sendEv (s.sendIdx + i)).retryable = true)) := by
  intro n
  induction n with
  | zero =>
    intro s
    refine ⟨by simp [sendGo, countE], fun _ => rfl, ?_⟩
    simp [sendGo, countE]
  | succ k ih =>
    intro s
    by_cases hd : s.dgram = false
    · have hpre : sendPre cfg env s =
          ((connectRun cfg env s).st,
           .connectCalled :: (connectRun cfg env s).tr,
           (connectRun cfg env s).exc) := by
        simp [sendPre, hd]
      have hnotr := connectRun_no_send_events cfg env s
      have hsidx : (connectRun cfg env s).st.sendIdx = s.sendIdx :=
        (connectRun_preserves cfg env s).2.1
      cases hex : (connectRun cfg env s).exc with
      | some e =>
        simp only [sendGo, hpre, hex]
        refine ⟨?_, ?_, ?_⟩
        · rw [countE_cons]
          simp [isTransmit, hnotr.1]
        · intro _
          rw [countE_cons, countE_cons]
          simp [isTransmit, isSleepSend, hnotr.1, hnotr.2]
        · constructor
          · rintro ⟨h1, _⟩; cases h1
          · rintro ⟨h1, _⟩
            rw [countE_cons] at h1
            simp [isTransmit, hnotr.1] at h1
      | none =>
        cases hoc : env.sendEv (connectRun cfg env s).st.sendIdx with
        | ok =>
          simp only [sendGo, hpre, hex, hoc]
          refine ⟨?_, ?_, ?_⟩
          · rw [countE_append, countE_cons, countE_cons, countE_cons,
              countE_nil]
            simp [isTransmit, hnotr.1]
          · intro _
            rw [countE_append, countE_append, countE_cons, countE_cons,
              countE_cons, countE_cons, countE_cons, countE_cons,
              countE_nil, countE_nil]
            simp [isTransmit, isSleepSend, hnotr.1, hnotr.2]
          · constructor
            · rintro ⟨_, h2⟩; cases h2
            · rintro ⟨_, hall⟩
              have h0 := hall 0 (Nat.succ_pos k)
              rw [Nat.add_zero, ← hsidx, hoc] at h0
              cases h0
        | closed =>
          have hrec := ih (addErrorS cfg env
            (dropSock (bumpSend (connectRun cfg env s).st))).1
          have hs2 : (addErrorS cfg env
              (dropSock (bumpSend (connectRun cfg env s).st))).1.sendIdx =
              s.sendIdx + 1 := by
            rw [(addErrorS_fields _ _ _).1]
            simp [dropSock, bumpSend, hsidx]
          rw [hs2] at hrec
          simp only [sendGo, hpre, hex, hoc, addErrorS_event]
          refine ⟨?_, ?_, ?_⟩
          · rw [countE_append, countE_cons, countE_cons, countE_cons,
              countE_cons]
            simp [isTransmit, hnotr.1]
            omega
          · intro hno
            have hb := hrec.2.1 hno
            rw [countE_append, countE_append, countE_cons, countE_cons,
              countE_cons, countE_cons, countE_cons, countE_cons,
              countE_cons, countE_cons]
            simp [isTransmit, isSleepSend, hnotr.1, hnotr.2]
            omega
          · have hc := hrec.2.2
            constructor
            · rintro ⟨h1, h2⟩
              obtain ⟨hcnt, hall⟩ := hc.mp ⟨h1, h2⟩
              constructor
              · rw [countE_append, countE_cons, countE_cons, countE_cons,
                  countE_cons]
                simp [isTransmit, hnotr.1]
                omega
              · intro i hi
                cases i with
                | zero => rw [Nat.add_zero, ← hsidx, hoc]; rfl
                | succ j =>
                  have hj := hall j (by omega)
                  have heq : s.sendIdx + 1 + j = s.sendIdx + (j + 1) := by
                    omega
                  rw [heq] at hj
                  exact hj
            · rintro ⟨h1, hall⟩
              rw [countE_append, countE_cons, countE_cons, countE_cons,
                countE_cons] at h1
              simp [isTransmit, hnotr.1] at h1
              refine hc.mpr ⟨by omega, ?_⟩
              intro i hi
              have := hall (i + 1) (by omega)
              have heq : s.sendIdx + (i + 1) = s.sendIdx + 1 + i := by omega
              rw [heq] at this
              exact this
        | timeout =>
          have hrec := ih (addErrorS cfg env
            (bumpSend (connectRun cfg env s).st)).1
          have hs2 : (addErrorS cfg env
              (bumpSend (connectRun cfg env s).st)).1.sendIdx =
              s.sendIdx + 1 := by
            rw [(addErrorS_fields _ _ _).1]
            simp [bumpSend, hsidx]
          rw [hs2] at hrec
          simp only [sendGo, hpre, hex, hoc, addErrorS_event]
          refine ⟨?_, ?_, ?_⟩
          · rw [countE_append, countE_cons, countE_cons, countE_cons,
              countE_cons]
            simp [isTransmit, hnotr.1]
            omega
          · intro hno
            have hb := hrec.2.1 hno
            rw [countE_append, countE_append, countE_cons, countE_cons,
              countE_cons, countE_cons, countE_cons, countE_cons,
              countE_cons, countE_cons]
            simp [isTransmit, isSleepSend, hnotr.1, hnotr.2]
            omega
          · have hc := hrec.2.2
            constructor
            · rintro ⟨h1, h2⟩
              obtain ⟨hcnt, hall⟩ := hc.mp ⟨h1, h2⟩
              constructor
              · rw [countE_append, countE_cons, countE_cons, countE_cons,
                  countE_cons]
                simp [isTransmit, hnotr.1]
                omega
              · intro i hi
                cases i with
                | zero => rw [Nat.add_zero, ← hsidx, hoc]; rfl
                | succ j =>
                  have hj := hall j (by omega)
                  have heq : s.sendIdx + 1 + j = s.sendIdx + (j + 1) := by
                    omega
                  rw [heq] at hj
                  exact hj
            · rintro ⟨h1, hall⟩
              rw [countE_append, countE_cons, countE_cons, countE_cons,
                countE_cons] at h1
              simp [isTransmit, hnotr.1] at h1
              refine hc.mpr ⟨by omega, ?_⟩
              intro i hi
              have := hall (i + 1) (by omega)
              have heq : s.sendIdx + (i + 1) = s.sendIdx + 1 + i := by omega
              rw [heq] at this
              exact this
        | osError code =>
          simp only [sendGo, hpre, hex, hoc]
          refine ⟨?_, ?_, ?_⟩
          · rw [countE_append, countE_cons, countE_cons, countE_nil]
            simp [isTransmit, hnotr.1]
          · intro hno
            exact absurd rfl (hno code)
          · constructor
            · rintro ⟨h1, _⟩; cases h1
            · rintro ⟨_, hall⟩
              have h0 := hall 0 (Nat.succ_pos k)
              rw [Nat.add_zero, ← hsidx, hoc] at h0
              cases h0
    · have hpre : sendPre cfg env s = (s, [], none) := by
        simp [sendPre, hd]
      cases hoc : env.sendEv s.sendIdx with
      | ok =>
        simp only [sendGo, hpre, hoc, List.nil_append]
        refine ⟨?_, ?_, ?_⟩
        · rw [countE_cons, countE_cons, countE_nil]
          simp [isTransmit]
        · intro _
          rw [countE_cons, countE_cons, countE_nil, countE_cons,
            countE_cons, countE_nil]
          simp [isTransmit, isSleepSend]
        · constructor
          · rintro ⟨_, h2⟩; cases h2
          · rintro ⟨_, hall⟩
            have h0 := hall 0 (Nat.succ_pos k)
            rw [Nat.add_zero, hoc] at h0
            cases h0
      | closed =>
        have hrec := ih (addErrorS cfg env (dropSock (bumpSend s))).1
        have hs2 : (addErrorS cfg env
            (dropSock (bumpSend s))).1.sendIdx = s.sendIdx + 1 := by
          rw [(addErrorS_fields _ _ _).1]
          simp [dropSock, bumpSend]
        rw [hs2] at hrec
        simp only [sendGo, hpre, hoc, addErrorS_event, List.nil_append]
        refine ⟨?_, ?_, ?_⟩
        · rw [countE_cons, countE_cons, countE_cons]
          simp [isTransmit]
          omega
        · intro hno
          have hb := hrec.2.1 hno
          rw [countE_cons, countE_cons, countE_cons, countE_cons,
            countE_cons, countE_cons]
          simp [isTransmit, isSleepSend]
          omega
        · have hc := hrec.2.2
          constructor
          · rintro ⟨h1, h2⟩
            obtain ⟨hcnt, hall⟩ := hc.mp ⟨h1, h2⟩
            constructor
            · rw [countE_cons, countE_cons, countE_cons]
              simp [isTransmit]
              omega
            · intro i hi
              cases i with
              | zero => rw [Nat.add_zero, hoc]; rfl
              | succ j =>
                have hj := hall j (by omega)
                have heq : s.sendIdx + 1 + j = s.sendIdx + (j + 1) := by omega
                rw [heq] at hj
                exact hj
          · rintro ⟨h1, hall⟩
            rw [countE_cons, countE_cons, countE_cons] at h1
            simp [isTransmit] at h1
            refine hc.mpr ⟨by omega, ?_⟩
            intro i hi
            have := hall (i + 1) (by omega)
            have heq : s.sendIdx + (i + 1) = s.sendIdx + 1 + i := by omega
            rw [heq] at this
            exact this
      | timeout =>
        have hrec := ih (addErrorS cfg env (bumpSend s)).1
        have hs2 : (addErrorS cfg env
            (bumpSend s)).1.sendIdx = s.sendIdx + 1 := by
          rw [(addErrorS_fields _ _ _).1]
          simp [bumpSend]
        rw [hs2] at hrec
        simp only [sendGo, hpre, hoc, addErrorS_event, List.nil_append]
        refine ⟨?_, ?_, ?_⟩
        · rw [countE_cons, countE_cons, countE_cons]
          simp [isTransmit]
          omega
        · intro hno
          have hb := hrec.2.1 hno
          rw [countE_cons, countE_cons, countE_cons, countE_cons,
            countE_cons, countE_cons]
          simp [isTransmit, isSleepSend]
          omega
        · have hc := hrec.2.2
          constructor
          · rintro ⟨h1, h2⟩
            obtain ⟨hcnt, hall⟩ := hc.mp ⟨h1, h2⟩
            constructor
            · rw [countE_cons, countE_cons, countE_cons]
              simp [isTransmit]
              omega
            · intro i hi
              cases i with
              | zero => rw [Nat.add_zero, hoc]; rfl
              | succ j =>
                have hj := hall j (by omega)
                have heq : s.sendIdx + 1 + j = s.sendIdx + (j + 1) := by omega
                rw [heq] at hj
                exact hj
          · rintro ⟨h1, hall⟩
            rw [countE_cons, countE_cons, countE_cons] at h1
            simp [isTransmit] at h1
            refine hc.mpr ⟨by omega, ?_⟩
            intro i hi
            have := hall (i + 1) (by omega)
            have heq : s.sendIdx + (i + 1) = s.sendIdx + 1 + i := by omega
            rw [heq] at this
            exact this
      | osError code =>
        simp only [sendGo, hpre, hoc, List.nil_append]
        refine ⟨?_, ?_, ?_⟩
        · rw [countE_cons, countE_nil]
          simp [isTransmit]
        · intro hno
          exact absurd rfl (hno code)
        · constructor
          · rintro ⟨h1, _⟩; cases h1
          · rintro ⟨_, hall⟩
            have h0 := hall 0 (Nat.succ_pos k)
            rw [Nat.add_zero, hoc] at h0
            cases h0

/-- `_connect` either returns normally or raises exactly the
«unable to start» failure. -/
theorem connectRun_exc (cfg : Cfg) (env : Env) (s : MitmState) :
    (connectRun cfg env s).exc = none ∨
    (connectRun cfg env s).exc = some .childUnableToStart := by
  simp only [connectRun]
  split
  · right; rfl
  · left; rfl

/-- The `send_data` loop itself never raises the «unable to send»
failure (that failure is raised by `send_data` after the loop). -/
theorem sendGo_no_uts (cfg : Cfg) (env : Env) (d : List Nat) (dst : Addr)
    (md : Rat) :
    ∀ (n : Nat) (s : MitmState),
      (sendGo cfg env d dst md n s).exc ≠ some .childUnableToSend := by
  intro n
  induction n with
  | zero => intro s h; simp [sendGo] at h
  | succ k ih =>
    intro s
    by_cases hd : s.dgram = false
    · have hpre : sendPre cfg env s =
          ((connectRun cfg env s).st,
           .connectCalled :: (connectRun cfg env s).tr,
           (connectRun cfg env s).exc) := by
        simp [sendPre, hd]
      cases hex : (connectRun cfg env s).exc with
      | some e =>
        rcases connectRun_exc cfg env s with hN | hU
        · rw [hex] at hN; cases hN
        · rw [hex] at hU
          injection hU with h2
          subst h2
          simp [sendGo, hpre, hex]
      | none =>
        cases hoc : env.sendEv (connectRun cfg env s).st.sendIdx with
        | ok => simp [sendGo, hpre, hex, hoc]
        | closed =>
          simp only [sendGo, hpre, hex, hoc]
          exact ih _
        | timeout =>
          simp only [sendGo, hpre, hex, hoc]
          exact ih _
        | osError code => simp [sendGo, hpre, hex, hoc]
    · have hpre : sendPre cfg env s = (s, [], none) := by
        simp [sendPre, hd]
      cases hoc : env.sendEv s.sendIdx with
      | ok => simp [sendGo, hpre, hoc]
      | closed =>
        simp only [sendGo, hpre, hoc]
        exact ih _
      | timeout =>
        simp only [sendGo, hpre, hoc]
        exact ih _
      | osError code => simp [sendGo, hpre, hoc]

/-- All of `_connect`'s events leave `sleepValIs` true (it emits no
per-attempt send sleeps). -/
theorem connectRun_all_sleepVal (cfg : Cfg) (env : Env) (s : MitmState)
    (md : Rat) :
    ((connectRun cfg env s).tr.all (sleepValIs md)) = true := by
  rw [List.all_eq_true]
  intro e he
  rcases connectRun_mem cfg env s e he with hk | rfl
  · cases e <;> simp_all [isBindTry, isErrorRec, isSleepConnect, sleepValIs]
  · rfl

/-- Every per-attempt sleep of the `send_data` loop has the duration
`max(minDelay, 0.1)` (line 210). -/
theorem sendGo_all_sleepVal (cfg : Cfg) (env : Env) (d : List Nat)
    (dst : Addr) (md : Rat) :
    ∀ (n : Nat) (s : MitmState),
      ((sendGo cfg env d dst md n s).tr.all (sleepValIs md)) = true := by
  intro n
  induction n with
  | zero => intro s; rfl
  | succ k ih =>
    intro s
    simp only [sendGo]
    by_cases hd : s.dgram = false
    · simp only [sendPre, if_pos hd]
      cases hex : (connectRun cfg env s).exc with
      | some e =>
        simp [hex, sleepValIs, connectRun_all_sleepVal cfg env s md]
      | none =>
        cases hoc : env.sendEv (connectRun cfg env s).st.sendIdx <;>
          simp [hex, hoc, sleepValIs, addErrorS,
            connectRun_all_sleepVal cfg env s md, ih, List.all_append]
    · simp only [sendPre, if_neg hd]
      cases hoc : env.sendEv s.sendIdx <;>
        simp [hoc, sleepValIs, addErrorS, ih, List.all_append]

/-- `send_data` returns the trace of its loop unchanged. -/
theorem send_data_tr (cfg : Cfg) (env : Env) (d : List Nat) (dst : Addr)
    (md : Rat) (s : MitmState) :
    (send_data cfg env d dst md s).tr =
      (sendGo cfg env d dst md SEND_DATA_RETRIES s).tr := by
  simp only [send_data]
  split
  · rfl
  · split <;> rfl

/-- `send_data` raises «unable to send» exactly when its loop ended
normally without a successful transmission. -/
theorem send_data_uts_iff (cfg : Cfg) (env : Env) (d : List Nat)
    (dst : Addr) (md : Rat) (s : MitmState) :
    ((send_data cfg env d dst md s).exc = some .childUnableToSend ↔
      ((sendGo cfg env d dst md SEND_DATA_RETRIES s).exc = none ∧
       (sendGo cfg env d dst md SEND_DATA_RETRIES s).sent = false)) := by
  simp only [send_data]
  split
  · rename_i e heq
    constructor
    · intro h
      simp only [] at h
      injection h with h2
      subst h2
      exact absurd heq (sendGo_no_uts cfg env d dst md SEND_DATA_RETRIES s)
    · rintro ⟨h1, _⟩
      rw [heq] at h1
      cases h1
  · rename_i heq
    split
    · rename_i hsent
      constructor
      · intro h; cases h
      · rintro ⟨_, h2⟩
        rw [hsent] at h2
        cases h2
    · rename_i hsent
      constructor
      · intro _
        refine ⟨heq, ?_⟩
        revert hsent
        cases (sendGo cfg env d dst md SEND_DATA_RETRIES s).sent <;> simp
      · intro _; rfl

/-- C5.  `send_data(data, destination, minDelay)`: (1) makes at most
`SEND_DATA_RETRIES` transmit attempts; (2) unless a raw transport
`OSError` aborted the loop, every attempt — successful or not — is
followed by exactly one sleep, and (3) every such sleep lasts
`max(minDelay, 0.1)` seconds; (4) an iteration entered with no socket
held reconnects first; (5) a transport-closed outcome records a fault,
drops the socket reference and retries with one fewer attempt left; (6) a
per-attempt timeout records a fault (keeping the socket) and retries; and
(7) it raises the fatal «unable to send» failure precisely when all
`SEND_DATA_RETRIES` attempts ran and every one ended in a retryable
fault. -/
theorem c5_send_data_spec (cfg : Cfg) (env : Env) (d : List Nat)
    (dst : Addr) (md : Rat) (s : MitmState) :
    countE isTransmit (send_data cfg env d dst md s).tr ≤
      SEND_DATA_RETRIES ∧
    ((∀ c, (send_data cfg env d dst md s).exc ≠ some (.osErr c)) →
      countE isSleepSend (send_data cfg env d dst md s).tr =
        countE isTransmit (send_data cfg env d dst md s).tr) ∧
    ((send_data cfg env d dst md s).tr.all (sleepValIs md)) = true ∧
    (∀ (n : Nat) (s' : MitmState), s'.dgram = false →
      (sendGo cfg env d dst md (n + 1) s').tr.head? =
        some .connectCalled) ∧
    (∀ (n : Nat) (s' : MitmState), s'.dgram = true →
      env.sendEv s'.sendIdx = .closed →
      sendGo cfg env d dst md (n + 1) s' =
        ⟨(sendGo cfg env d dst md n
            (addErrorS cfg env (dropSock (bumpSend s'))).1).st,
         .transmit d dst .closed true ::
           (addErrorS cfg env (dropSock (bumpSend s'))).2 ::
           .sleepSend (max md (1 / 10)) ::
           (sendGo cfg env d dst md n
             (addErrorS cfg env (dropSock (bumpSend s'))).1).tr,
         (sendGo cfg env d dst md n
           (addErrorS cfg env (dropSock (bumpSend s'))).1).exc,
         (sendGo cfg env d dst md n
           (addErrorS cfg env (dropSock (bumpSend s'))).1).sent⟩) ∧
    (∀ (n : Nat) (s' : MitmState), s'.dgram = true →
      env.sendEv s'.sendIdx = .timeout →
      sendGo cfg env d dst md (n + 1) s' =
        ⟨(sendGo cfg env d dst md n
            (addErrorS cfg env (bumpSend s')).1).st,
         .transmit d dst .timeout true ::
           (addErrorS cfg env (bumpSend s')).2 ::
           .sleepSend (max md (1 / 10)) ::
           (sendGo cfg env d dst md n
             (addErrorS cfg env (bumpSend s')).1).tr,
         (sendGo cfg env d dst md n
           (addErrorS cfg env (bumpSend s')).1).exc,
         (sendGo cfg env d dst md n
           (addErrorS cfg env (bumpSend s')).1).sent⟩) ∧
    ((send_data cfg env d dst md s).exc = some .childUnableToSend ↔
      (countE isTransmit (send_data cfg env d dst md s).tr =
         SEND_DATA_RETRIES ∧
       ∀ i < SEND_DATA_RETRIES,
         (env.sendEv (s.sendIdx + i)).retryable = true)) := by
  have hs := sendGo_spec cfg env d dst md SEND_DATA_RETRIES s
  refine ⟨?_, ?_, ?_, ?_, ?_, ?_, ?_⟩
  · rw [send_data_tr]
    exact hs.1
  · intro hno
    rw [send_data_tr]
    refine hs.2.1 ?_
    intro c hc
    have htr : (send_data cfg env d dst md s).exc = some (.osErr c) := by
      simp only [send_data]
      split
      · rename_i e heq
        rw [heq] at hc
        injection hc with h2
        rw [h2]
      · rename_i heq
        rw [heq] at hc
        cases hc
    exact hno c htr
  · rw [send_data_tr]
    exact sendGo_all_sleepVal cfg env d dst md SEND_DATA_RETRIES s
  · intro n s' hd
    have hpre : sendPre cfg env s' =
        ((connectRun cfg env s').st,
         .connectCalled :: (connectRun cfg env s').tr,
         (connectRun cfg env s').exc) := by
      simp [sendPre, hd]
    simp only [sendGo, hpre]
    cases hex : (connectRun cfg env s').exc with
    | some e => rfl
    | none =>
      cases hoc : env.sendEv (connectRun cfg env s').st.sendIdx <;>
        simp [List.cons_append]
  · intro n s' hd hoc
    have hpre : sendPre cfg env s' = (s', [], none) := by
      simp [sendPre, hd]
    simp only [sendGo, hpre, hoc, List.nil_append]
  · intro n s' hd hoc
    have hpre : sendPre cfg env s' = (s', [], none) := by
      simp [sendPre, hd]
    simp only [sendGo, hpre, hoc, List.nil_append]
  · rw [send_data_uts_iff, send_data_tr]
    exact hs.2.2

/-- C5 witness: with every transmit attempt timing out, a concrete
`send_data` call makes exactly `SEND_DATA_RETRIES` attempts, sleeps
`max(0.1, 0.1)` after each, and raises the «unable to send» failure;
and a concrete iteration entered without a socket reconnects first. -/
theorem c5_send_data_witness :
    countE isTransmit (send_data cfg0
        { env0 with sendEv := fun _ => .timeout } [9] ⟨1, 8042⟩ (1 / 10)
        { mitmState0 with dgram := true }).tr ≤ SEND_DATA_RETRIES ∧
    (send_data cfg0 { env0 with sendEv := fun _ => .timeout } [9] ⟨1, 8042⟩
        (1 / 10) { mitmState0 with dgram := true }).exc =
      some .childUnableToSend ∧
    (sendGo cfg0 env0 [9] ⟨1, 8042⟩ (1 / 10) 3 mitmState0).tr.head? =
      some .connectCalled :=
  ⟨(c5_send_data_spec cfg0 { env0 with sendEv := fun _ => .timeout }
      [9] ⟨1, 8042⟩ (1 / 10) { mitmState0 with dgram := true }).1,
   (c5_send_data_spec cfg0 { env0 with sendEv := fun _ => .timeout }
      [9] ⟨1, 8042⟩ (1 / 10) { mitmState0 with dgram := true }).2.2.2.2.2.2.mpr
     ⟨by decide, by decide⟩,
   (c5_send_data_spec cfg0 env0 [9] ⟨1, 8042⟩ (1 / 10) mitmState0).2.2.2.1 2
     mitmState0 rfl⟩

/-! ## C8: device-address learning -/

/-- The `send_data` loop never changes `self._juicebox_addr`. -/
theorem sendGo_juicebox (cfg : Cfg) (env : Env) (d : List Nat) (dst : Addr)
    (md : Rat) :
    ∀ (n : Nat) (s : MitmState),
      (sendGo cfg env d dst md n s).st.juicebox_addr = s.juicebox_addr := by
  intro n
  induction n with
  | zero => intro s; rfl
  | succ k ih =>
    intro s
    by_cases hd : s.dgram = false
    · have hpre : sendPre cfg env s =
          ((connectRun cfg env s).st,
           .connectCalled :: (connectRun cfg env s).tr,
           (connectRun cfg env s).exc) := by
        simp [sendPre, hd]
      have hjb : (connectRun cfg env s).st.juicebox_addr = s.juicebox_addr :=
        (connectRun_preserves cfg env s).1
      cases hex : (connectRun cfg env s).exc with
      | some e =>
        simp only [sendGo, hpre, hex]
        exact hjb
      | none =>
        cases hoc : env.sendEv (connectRun cfg env s).st.sendIdx <;>
          simp only [sendGo, hpre, hex, hoc] <;>
          first
          | exact hjb
          | (rw [ih]; exact hjb)
    · have hpre : sendPre cfg env s = (s, [], none) := by
        simp [sendPre, hd]
      cases hoc : env.sendEv s.sendIdx <;>
        simp only [sendGo, hpre, hoc] <;>
        (try rw [ih]) <;> rfl
  -- (In the recursive cases the recursion starts from a state built by
  -- `addErrorS`, `bumpSend` and `dropSock`, none of which touches the
  -- device address.)

/-- `send_data` returns its loop's final state unchanged. -/
theorem send_data_st (cfg : Cfg) (env : Env) (d : List Nat) (dst : Addr)
    (md : Rat) (s : MitmState) :
    (send_data cfg env d dst md s).st =
      (sendGo cfg env d dst md SEND_DATA_RETRIES s).st := by
  simp only [send_data]
  split
  · rfl
  · split <;> rfl

/-- The `except OSError` clause never changes `self._juicebox_addr`. -/
theorem handlerCatch_juicebox (cfg : Cfg) (env : Env) (server : Bool)
    (dest : Addr) (r : MRes) :
    (handlerCatch cfg env server dest r).st.juicebox_addr =
      r.st.juicebox_addr := by
  simp only [handlerCatch]
  split
  · rfl
  · split
    · split
      · rfl
      · rfl
    · rfl

/-- C8.  For every inbound datagram whose source host differs from the
configured cloud (EnelX) host, the dispatcher sets
`self._juicebox_addr` to that datagram's source address — on every such
datagram, whatever address (if any) was learned before, so the device
endpoint is overwritten rather than latched. -/
theorem c8_device_addr_overwrite (cfg : Cfg) (env : Env) (d : List Nat)
    (fa : Addr) (s : MitmState) (h : fa.host ≠ cfg.enelx_addr.host) :
    (main_mitm_handler cfg env (some d) (some fa) s).st.juicebox_addr =
      some fa := by
  simp only [main_mitm_handler]
  rw [if_pos h]
  rw [if_pos (show ({ s with juicebox_addr := some fa } :
    MitmState).juicebox_addr = some fa from rfl)]
  by_cases hir : cfg.ignore_remote = false
  · rw [if_pos hir]
    simp only []
    rw [handlerCatch_juicebox, send_data_st, sendGo_juicebox]
    rfl
  · rw [if_neg hir]
    rfl

/-- C8 witness: a datagram from host 2 (≠ cloud host 1) overwrites a
previously learned device address with its own source address. -/
theorem c8_device_addr_witness :
    (main_mitm_handler cfg0 env0 (some [9]) (some ⟨2, 2000⟩)
      { mitmState0 with dgram := true, juicebox_addr := some ⟨3, 3000⟩ }
      ).st.juicebox_addr =
      some ⟨2, 2000⟩ :=
  c8_device_addr_overwrite cfg0 env0 [9] ⟨2, 2000⟩
    { mitmState0 with dgram := true, juicebox_addr := some ⟨3, 3000⟩ }
    (by decide)

/-! ## C4: the fate of the fatal «unable to send» failure -/

/-- C4.  Failing input, evaluated: with every transmit attempt timing
out, `send_data` from inside the dispatcher raises the fatal
«unable to send» `ChildProcessError`; but because `ChildProcessError`
is a subclass of `OSError` in Python, the dispatcher's
`except OSError` clause (line 147) catches it, and the diagnostic
`errno.errorcode[e.errno]` in the warning then raises `KeyError`
(`errno` is `None` for that exception), so the dispatcher exits with
`KeyError` instead of letting the fatal failure propagate: the fatal
failure IS handled inside the handler, contradicting the claim (the
relay still dies, but by the accidental `KeyError`). -/
theorem c4_fatal_send_swallowed :
    (main_mitm_handler cfg0 { env0 with sendEv := fun _ => .timeout }
      (some [9]) (some ⟨2, 2000⟩)
      { mitmState0 with dgram := true }).exc = some .keyError ∧
    (send_data cfg0 { env0 with sendEv := fun _ => .timeout } [7]
      cfg0.enelx_addr (1 / 10)
      (bumpLocal
        { mitmState0 with dgram := true, juicebox_addr := some ⟨2, 2000⟩ })
      ).exc =
      some .childUnableToSend ∧
    PyExc.isOSError .childUnableToSend = true ∧
    PyExc.errnoVal .childUnableToSend = none := by
  refine ⟨by decide, by decide, rfl, rfl⟩

/-! ## C2: the error window and the receive loop -/

/-- Filtering by a lower cutoff and then a higher one is filtering by the
higher one. -/
theorem filter_cutoff_collapse (c1 c2 : Int) (hle : c1 ≤ c2) :
    ∀ (l : List Int),
      (l.filter (fun el => decide (c1 < el))).filter
          (fun el => decide (c2 < el)) =
        l.filter (fun el => decide (c2 < el)) := by
  intro l
  induction l with
  | nil => rfl
  | cons a t iht =>
    simp only [List.filter_cons]
    by_cases h1 : c1 < a
    · by_cases h2 : c2 < a
      · simp [h1, h2, List.filter_cons, iht]
      · simp [h1, h2, List.filter_cons, iht]
    · have h2 : ¬ c2 < a := fun hc => h1 (lt_of_le_of_lt hle hc)
      simp [h1, h2, iht]

/-- Map-then-filter has the same length as filtering the indices. -/
theorem length_filter_map_eq (t : Nat → Int) (p : Int → Bool) :
    ∀ (l : List Nat),
      ((l.map t).filter p).length =
        (l.filter (fun j => p (t j))).length := by
  intro l
  induction l with
  | nil => rfl
  | cons a tl ih =>
    by_cases hp : p (t a) = true <;>
      simp [List.filter_cons, hp, ih]

/-- Closed form of the fault record under a monotone clock: after
recording the instants `t 0 … t k`, exactly those instants survive that
are strictly inside the lookback window ending at `t k`. -/
theorem recordUpTo_closed_form (L : Int) (t : Nat → Int)
    (hm : Monotone t) :
    ∀ (k : Nat),
      recordUpTo L t (k + 1) =
        ((List.range (k + 1)).map t).filter
          (fun x => decide (t k - L * 60 < x)) := by
  intro k
  induction k with
  | zero => simp [recordUpTo, addErrorPure, List.range_succ]
  | succ j ih =>
    have hstep : recordUpTo L t (j + 2) =
        (recordUpTo L t (j + 1) ++ [t (j + 1)]).filter
          (fun x => decide (t (j + 1) - L * 60 < x)) := rfl
    rw [hstep, ih, List.filter_append,
      filter_cutoff_collapse (t j - L * 60) (t (j + 1) - L * 60)
        (by have := hm (show j ≤ j + 1 by omega); omega)]
    rw [List.range_succ (n := j + 1), List.map_append, List.filter_append]
    simp

/-- The record length after `k` recordings is the windowed count. -/
theorem recordUpTo_length (L : Int) (t : Nat → Int) (hm : Monotone t)
    (k : Nat) :
    (recordUpTo L t (k + 1)).length = windowCount L t k := by
  rw [recordUpTo_closed_form L t hm k, windowCount,
    length_filter_map_eq t (fun x => decide (t k - L * 60 < x))
      (List.range (k + 1))]

/-- If every window stays below the threshold, every record length
does. -/
theorem recordUpTo_length_lt (L : Int) (t : Nat → Int) (M : Nat)
    (hm : Monotone t) (hsp : ∀ k, windowCount L t k < M) :
    ∀ (k : Nat), (recordUpTo L t k).length < M := by
  intro k
  cases k with
  | zero => exact Nat.lt_of_le_of_lt (Nat.zero_le _) (hsp 0)
  | succ j => rw [recordUpTo_length L t hm j]; exact hsp j

/-- Faults all lying strictly within one lookback window are never
pruned: the record holds all of them. -/
theorem recordUpTo_full (L : Int) (t : Nat → Int) (k : Nat)
    (hm : Monotone t) (hwin : t k - t 0 < L * 60) :
    (recordUpTo L t (k + 1)).length = k + 1 := by
  rw [recordUpTo_closed_form L t hm k]
  rw [List.filter_eq_self.mpr ?_]
  · rw [List.length_map, List.length_range]
  · intro x hx
    rw [List.mem_map] at hx
    obtain ⟨j, _, rfl⟩ := hx
    have h0 : t 0 ≤ t j := hm (Nat.zero_le j)
    simp only [decide_eq_true_eq]
    omega

/-- `_add_error` maintains the record invariant: one more clock value is
consumed and the record is the corresponding fold. -/
theorem addErrorS_inv (cfg : Cfg) (env : Env) (s : MitmState)
    (h : RecordInv cfg env s) : RecordInv cfg env (addErrorS cfg env s).1 := by
  obtain ⟨h1, h2⟩ := h
  constructor
  · show addErrorPure cfg.ERROR_LOOKBACK_MIN (env.timeAt s.clock)
      s.error_timestamp_list =
      recordUpTo cfg.ERROR_LOOKBACK_MIN env.timeAt (s.clock + 1)
    rw [h1]
    rfl
  · rfl

/-- The `_connect` loop maintains the record invariant. -/
theorem connectGo_inv (cfg : Cfg) (env : Env) :
    ∀ (fuel attempt : Nat) (s : MitmState), RecordInv cfg env s →
      RecordInv cfg env (connectGo cfg env fuel attempt s).1 := by
  intro fuel
  induction fuel with
  | zero => intro attempt s h; exact h
  | succ n ih =>
    intro attempt s h
    simp only [connectGo]
    split
    · split
      · exact ih (attempt + 1) _ h
      · exact ih (attempt + 1) _ (addErrorS_inv cfg env _ h)
    · exact h

/-- `_connect` maintains the record invariant. -/
theorem connectRun_inv (cfg : Cfg) (env : Env) (s : MitmState)
    (h : RecordInv cfg env s) :
    RecordInv cfg env (connectRun cfg env s).st := by
  simp only [connectRun]
  split
  · exact connectGo_inv cfg env _ 1 s h
  · exact connectGo_inv cfg env _ 1 s h

/-- The `send_data` loop maintains the record invariant. -/
theorem sendGo_inv (cfg : Cfg) (env : Env) (d : List Nat) (dst : Addr)
    (md : Rat) :
    ∀ (n : Nat) (s : MitmState), RecordInv cfg env s →
      RecordInv cfg env (sendGo cfg env d dst md n s).st := by
  intro n
  induction n with
  | zero => intro s h; exact h
  | succ k ih =>
    intro s h
    by_cases hd : s.dgram = false
    · have hpre : sendPre cfg env s =
          ((connectRun cfg env s).st,
           .connectCalled :: (connectRun cfg env s).tr,
           (connectRun cfg env s).exc) := by
        simp [sendPre, hd]
      have hc := connectRun_inv cfg env s h
      cases hex : (connectRun cfg env s).exc with
      | some e =>
        simp only [sendGo, hpre, hex]
        exact hc
      | none =>
        cases hoc : env.sendEv (connectRun cfg env s).st.sendIdx <;>
          simp only [sendGo, hpre, hex, hoc]
        · exact hc
        · exact ih _ (addErrorS_inv cfg env _ hc)
        · exact ih _ (addErrorS_inv cfg env _ hc)
        · exact hc
    · have hpre : sendPre cfg env s = (s, [], none) := by
        simp [sendPre, hd]
      cases hoc : env.sendEv s.sendIdx <;>
        simp only [sendGo, hpre, hoc]
      · exact h
      · exact ih _ (addErrorS_inv cfg env _ h)
      · exact ih _ (addErrorS_inv cfg env _ h)
      · exact h

/-- `send_data` maintains the record invariant. -/
theorem send_data_inv (cfg : Cfg) (env : Env) (d : List Nat) (dst : Addr)
    (md : Rat) (s : MitmState) (h : RecordInv cfg env s) :
    RecordInv cfg env (send_data cfg env d dst md s).st := by
  rw [send_data_st]
  exact sendGo_inv cfg env d dst md SEND_DATA_RETRIES s h

/-- The `except OSError` clause maintains the record invariant. -/
theorem handlerCatch_inv (cfg : Cfg) (env : Env) (server : Bool)
    (dest : Addr) (r : MRes) (h : RecordInv cfg env r.st) :
    RecordInv cfg env (handlerCatch cfg env server dest r).st := by
  simp only [handlerCatch]
  split
  · exact h
  · split
    · split
      · exact h
      · exact addErrorS_inv cfg env _ h
    · exact h

/-- The dispatcher maintains the record invariant. -/
theorem handler_inv (cfg : Cfg) (env : Env) (data : Option (List Nat))
    (from_addr : Option Addr) (s : MitmState) (h : RecordInv cfg env s) :
    RecordInv cfg env
      (main_mitm_handler cfg env data from_addr s).st := by
  match data, from_addr with
  | some d, some fa =>
    simp only [main_mitm_handler]
    by_cases hh : fa.host ≠ cfg.enelx_addr.host
    · rw [if_pos hh,
        if_pos (show ({ s with juicebox_addr := some fa } :
          MitmState).juicebox_addr = some fa from rfl)]
      by_cases hir : cfg.ignore_remote = false
      · rw [if_pos hir]
        exact handlerCatch_inv cfg env _ _ _
          (send_data_inv cfg env _ _ _ _ h)
      · rw [if_neg hir]
        exact h
    · rw [if_neg hh]
      by_cases hjb : s.juicebox_addr = some fa
      · rw [if_pos hjb]
        by_cases hir : cfg.ignore_remote = false
        · rw [if_pos hir]
          exact handlerCatch_inv cfg env _ _ _
            (send_data_inv cfg env _ _ _ _ h)
        · rw [if_neg hir]
          exact h
      · rw [if_neg hjb]
        cases hjb2 : s.juicebox_addr with
        | none => simp only [hjb2]; exact h
        | some jb =>
          simp only [hjb2]
          by_cases hfe : fa = cfg.enelx_addr
          · rw [if_pos hfe]
            by_cases hir : cfg.ignore_remote = false
            · rw [if_pos hir]
              exact handlerCatch_inv cfg env _ _ _
                (send_data_inv cfg env _ _ _ _ h)
            · rw [if_neg hir]
              exact h
          · rw [if_neg hfe]
            exact h
  | some _, none => exact h
  | none, _ => exact h

/-- The `send_data` loop can only return no failure, the «unable to
start» failure of a nested `_connect`, or a raw transport `OSError`. -/
theorem sendGo_exc_cases (cfg : Cfg) (env : Env) (d : List Nat)
    (dst : Addr) (md : Rat) :
    ∀ (n : Nat) (s : MitmState),
      (sendGo cfg env d dst md n s).exc = none ∨
      (sendGo cfg env d dst md n s).exc = some .childUnableToStart ∨
      ∃ c, (sendGo cfg env d dst md n s).exc = some (.osErr c) := by
  intro n
  induction n with
  | zero => intro s; left; rfl
  | succ k ih =>
    intro s
    by_cases hd : s.dgram = false
    · have hpre : sendPre cfg env s =
          ((connectRun cfg env s).st,
           .connectCalled :: (connectRun cfg env s).tr,
           (connectRun cfg env s).exc) := by
        simp [sendPre, hd]
      cases hex : (connectRun cfg env s).exc with
      | some e =>
        rcases connectRun_exc cfg env s with hN | hU
        · rw [hex] at hN; cases hN
        · rw [hex] at hU
          injection hU with h2
          subst h2
          simp only [sendGo, hpre, hex]
          right; left; trivial
      | none =>
        cases hoc : env.sendEv (connectRun cfg env s).st.sendIdx <;>
          simp only [sendGo, hpre, hex, hoc]
        · left; trivial
        · exact ih _
        · exact ih _
        · rename_i code; right; right; exact ⟨code, rfl⟩
    · have hpre : sendPre cfg env s = (s, [], none) := by
        simp [sendPre, hd]
      cases hoc : env.sendEv s.sendIdx <;>
        simp only [sendGo, hpre, hoc]
      · left; trivial
      · exact ih _
      · exact ih _
      · rename_i code; right; right; exact ⟨code, rfl⟩

/-- `send_data` never raises the «too many errors» failure (that failure
belongs to the receive loop). -/
theorem send_data_no_tme (cfg : Cfg) (env : Env) (d : List Nat)
    (dst : Addr) (md : Rat) (s : MitmState) :
    (send_data cfg env d dst md s).exc ≠ some .childTooManyErrors := by
  simp only [send_data]
  split
  · rename_i e heq
    rcases sendGo_exc_cases cfg env d dst md SEND_DATA_RETRIES s with
      hN | hU | ⟨c, hO⟩
    · rw [heq] at hN; cases hN
    · rw [heq] at hU
      injection hU with h2
      subst h2
      simp
    · rw [heq] at hO
      injection hO with h2
      subst h2
      simp
  · split
    · simp
    · simp

/-- The `except OSError` clause turns exceptions only into `KeyError`
or absorbs them; it never produces the «too many errors» failure. -/
theorem handlerCatch_no_tme (cfg : Cfg) (env : Env) (server : Bool)
    (dest : Addr) (r : MRes) (h : r.exc ≠ some .childTooManyErrors) :
    (handlerCatch cfg env server dest r).exc ≠
      some .childTooManyErrors := by
  simp only [handlerCatch]
  split
  · exact h
  · split
    · split
      · simp
      · simp
    · exact h

/-- The dispatcher never raises the «too many errors» failure. -/
theorem handler_no_tme (cfg : Cfg) (env : Env) (data : Option (List Nat))
    (from_addr : Option Addr) (s : MitmState) :
    (main_mitm_handler cfg env data from_addr s).exc ≠
      some .childTooManyErrors := by
  match data, from_addr with
  | some d, some fa =>
    simp only [main_mitm_handler]
    by_cases hh : fa.host ≠ cfg.enelx_addr.host
    · rw [if_pos hh,
        if_pos (show ({ s with juicebox_addr := some fa } :
          MitmState).juicebox_addr = some fa from rfl)]
      by_cases hir : cfg.ignore_remote = false
      · rw [if_pos hir]
        exact handlerCatch_no_tme cfg env _ _ _
          (send_data_no_tme cfg env _ _ _ _)
      · rw [if_neg hir]
        simp
    · rw [if_neg hh]
      by_cases hjb : s.juicebox_addr = some fa
      · rw [if_pos hjb]
        by_cases hir : cfg.ignore_remote = false
        · rw [if_pos hir]
          exact handlerCatch_no_tme cfg env _ _ _
            (send_data_no_tme cfg env _ _ _ _)
        · rw [if_neg hir]
          simp
      · rw [if_neg hjb]
        cases hjb2 : s.juicebox_addr with
        | none => simp only [hjb2]; simp
        | some jb =>
          simp only [hjb2]
          by_cases hfe : fa = cfg.enelx_addr
          · rw [if_pos hfe]
            by_cases hir : cfg.ignore_remote = false
            · rw [if_pos hir]
              exact handlerCatch_no_tme cfg env _ _ _
                (send_data_no_tme cfg env _ _ _ _)
            · rw [if_neg hir]
              simp
          · rw [if_neg hfe]
            simp
  | some _, none => simp [main_mitm_handler]
  | none, _ => simp [main_mitm_handler]

/-- Under a monotone clock whose every lookback window holds fewer than
`MAX_ERROR_COUNT` faults, a receive loop whose record satisfies the run
invariant never raises the «too many errors» failure. -/
theorem mitm_loop_no_tme (cfg : Cfg) (env : Env)
    (hm : Monotone env.timeAt)
    (hsp : ∀ k, windowCount cfg.ERROR_LOOKBACK_MIN env.timeAt k <
      cfg.MAX_ERROR_COUNT) :
    ∀ (fuel : Nat) (s : MitmState), RecordInv cfg env s →
      (mitm_loop cfg env fuel s).exc ≠ some .childTooManyErrors := by
  intro fuel
  induction fuel with
  | zero =>
    intro s _ h
    simp [mitm_loop] at h
  | succ n ih =>
    intro s hinv
    have hcnt : s.error_count < cfg.MAX_ERROR_COUNT := by
      rw [hinv.2, hinv.1]
      exact recordUpTo_length_lt _ _ _ hm hsp s.clock
    simp only [mitm_loop]
    rw [if_pos hcnt]
    by_cases hd : s.dgram = false
    · rw [if_pos hd]
      cases hex : (connectRun cfg env (addErrorS cfg env s).1).exc with
      | some e =>
        simp only [hex]
        rcases connectRun_exc cfg env (addErrorS cfg env s).1 with hN | hU
        · rw [hex] at hN; cases hN
        · rw [hex] at hU
          injection hU with h2
          subst h2
          simp
      | none =>
        simp only [hex]
        exact ih _ (connectRun_inv cfg env _ (addErrorS_inv cfg env _ hinv))
    · rw [if_neg hd]
      cases hev : env.loopEv s.loopIdx with
      | recvClosed =>
        simp only [hev]
        exact ih _ (addErrorS_inv cfg env _ hinv)
      | recvTimeout =>
        simp only [hev]
        exact ih _ (addErrorS_inv cfg env _ hinv)
      | recvData d src =>
        simp only [hev]
        cases hh : (main_mitm_handler cfg env (some d) (some src)
            (bumpLoop s)).exc with
        | some e =>
          simp only [hh]
          exact hh ▸ handler_no_tme cfg env (some d) (some src) (bumpLoop s)
        | none =>
          simp only [hh]
          exact ih _ (handler_inv cfg env _ _ _ hinv)
      | recvDataHT d src =>
        simp only [hev]
        exact ih _ (addErrorS_inv cfg env _ hinv)

/-- C2.  The error window and loop termination: (i) whenever the fault
count has reached `MAX_ERROR_COUNT`, the next check of the receive loop
terminates it at once by raising the fatal «too many errors»
`ChildProcessError`; (ii) starting from an empty record, recording `k+1`
faults all lying within one `ERROR_LOOKBACK_MIN`-minute window prunes
nothing, so the count reaches `k+1` — in particular recording
`MAX_ERROR_COUNT` or more faults within the window drives the count to
the threshold that (i) turns into the fatal failure; and (iii) if the
recorded faults are spaced so that every lookback window holds fewer
than `MAX_ERROR_COUNT` of them, a loop run started with an empty fault
record never raises that failure. -/
theorem c2_error_window_spec :
    (∀ (cfg : Cfg) (env : Env) (n : Nat) (s : MitmState),
       cfg.MAX_ERROR_COUNT ≤ s.error_count →
       mitm_loop cfg env (n + 1) s = ⟨s, [], some .childTooManyErrors⟩) ∧
    (∀ (L : Int) (t : Nat → Int) (k : Nat), Monotone t →
       t k - t 0 < L * 60 →
       (recordUpTo L t (k + 1)).length = k + 1) ∧
    (∀ (cfg : Cfg) (env : Env) (fuel : Nat) (s : MitmState),
       Monotone env.timeAt →
       (∀ k, windowCount cfg.ERROR_LOOKBACK_MIN env.timeAt k <
         cfg.MAX_ERROR_COUNT) →
       s.clock = 0 → s.error_timestamp_list = [] → s.error_count = 0 →
       (mitm_loop cfg env fuel s).exc ≠ some .childTooManyErrors) := by
  refine ⟨?_, ?_, ?_⟩
  · intro cfg env n s h
    simp only [mitm_loop]
    rw [if_neg (Nat.not_lt.mpr h)]
  · intro L t k hm hwin
    exact recordUpTo_full L t k hm hwin
  · intro cfg env fuel s hm hsp h1 h2 h3
    refine mitm_loop_no_tme cfg env hm hsp fuel s ⟨?_, ?_⟩
    · rw [h2, h1]
      rfl
    · rw [h3, h2]
      rfl

/-- C2 witness: a loop entered with the count at the threshold raises
the «too many errors» failure at once; three faults recorded at the same
instant within a 1-minute window are all retained; and a loop run under
a clock whose windows never hold a full error budget does not raise that
failure. -/
theorem c2_error_window_witness :
    mitm_loop cfg0 env0 1 { mitmState0 with error_count := 5 } =
      ⟨{ mitmState0 with error_count := 5 }, [],
       some .childTooManyErrors⟩ ∧
    (recordUpTo 1 (fun _ => (0 : Int)) 3).length = 3 ∧
    (mitm_loop { cfg0 with MAX_ERROR_COUNT := 1, ERROR_LOOKBACK_MIN := 0 }
        { env0 with timeAt := fun _ => 0 } 2 mitmState0).exc ≠
      some .childTooManyErrors :=
  ⟨c2_error_window_spec.1 cfg0 env0 0 { mitmState0 with error_count := 5 }
     (by decide),
   c2_error_window_spec.2.1 1 (fun _ => 0) 2 monotone_const (by decide),
   c2_error_window_spec.2.2
     { cfg0 with MAX_ERROR_COUNT := 1, ERROR_LOOKBACK_MIN := 0 }
     { env0 with timeAt := fun _ => 0 } 2 mitmState0 monotone_const
     (fun k => by simp [windowCount]) rfl rfl rfl⟩
